import Mathlib

/-!
Verification development for the displayboard_scraper repository.

The repository is a family of per-site scrapers.  Each site script contains
pure string normalizer functions (regex based), an Excel "tabular sink", a
timestamped-backup routine, an HTTP ingestion sink and a polling driver
loop.  This file gives a shallow embedding of those parts:

* Strings are modelled as `List Char`.  Python `None` is modelled with
  `Option`.  Python exceptions are modelled with `Except PyErr`; a
  `try/except` wrapper becomes a `match` on the `Except` result.
* The concrete regular expressions appearing in the sources
  (for example the pattern consisting of a slash, a captured digit run and
  a slash in PortBlair_display_scrapper_api.py) are embedded as
  special-purpose deterministic matchers.  Each matcher reproduces the
  leftmost-match semantics of Python re.search / re.match for its specific
  pattern; the determinisation is justified in the comment next to each
  matcher (in all these patterns backtracking cannot rescue a failed
  greedy attempt because the character classes involved are disjoint).
* Character classes are the ASCII ones: the digit class is 0-9, the word
  class is ASCII letters, digits and underscore, the space class is the six
  ASCII whitespace characters recognised by Python.  All strings handled by
  the scrapers are ASCII.
* The selenium / BeautifulSoup DOM layer is abstracted: a table cell is its
  visible text together with its rowspan attribute, which is exactly the
  data the scraping code reads from a cell.
-/

namespace DisplayBoard

/-- Strings are lists of characters. -/
abbrev LC := List Char

/-- Python exception values relevant to this code base. -/
inductive PyErr where
  | valueError
  | zeroDivisionError
deriving DecidableEq, Repr

/-- Python str.isspace / the regex space class for ASCII:
space, tab, newline, carriage return, vertical tab, form feed. -/
def pyIsSpace (c : Char) : Bool :=
  c = ' ' || c = '\t' || c = '\n' || c = '\r' || c = '\x0b' || c = '\x0c'

/-- The regex word class for ASCII: letters, digits and underscore. -/
def isWordChar (c : Char) : Bool :=
  c.isAlpha || c.isDigit || c = '_'

/-- Drop leading Python whitespace (left part of str.strip). -/
def pyStripLeft : LC → LC
  | [] => []
  | c :: cs => if pyIsSpace c then pyStripLeft cs else c :: cs

/-- Python str.strip: drop whitespace from both ends. -/
def pyStrip (cs : LC) : LC :=
  (pyStripLeft ((pyStripLeft cs).reverse)).reverse

/-- Python str.lower for ASCII letters. -/
def pyLower (cs : LC) : LC := cs.map Char.toLower

/-- Greedy split of a leading digit run, as matched by a digit-class plus. -/
def takeDigits : LC → LC × LC
  | [] => ([], [])
  | c :: cs =>
    if c.isDigit then
      let p := takeDigits cs
      (c :: p.1, p.2)
    else ([], c :: cs)

/-- Greedy split of a leading uppercase-letter run, for the class A-Z. -/
def takeUppers : LC → LC × LC
  | [] => ([], [])
  | c :: cs =>
    if c.isUpper then
      let p := takeUppers cs
      (c :: p.1, p.2)
    else ([], c :: cs)

/-- Drop a greedy run of regex whitespace (a space-class star). -/
def dropWs : LC → LC
  | [] => []
  | c :: cs => if pyIsSpace c then dropWs cs else c :: cs

/-- Greedy split of a leading whitespace run. -/
def takeWs : LC → LC × LC
  | [] => ([], [])
  | c :: cs =>
    if pyIsSpace c then
      let p := takeWs cs
      (c :: p.1, p.2)
    else ([], c :: cs)

/-- Numeric value of a decimal digit character. -/
def digitVal (c : Char) : Nat := c.toNat - 48

/-- Value of a digit string. -/
def digitsVal (cs : LC) : Nat := cs.foldl (fun a c => 10 * a + digitVal c) 0

/-- Python int(str): strips whitespace, allows one sign, then requires a
nonempty digit run.  Raises ValueError otherwise. -/
def pyIntCore (d : LC) : Except PyErr Int :=
  if !d.isEmpty && d.all Char.isDigit then .ok (digitsVal d) else .error .valueError

def pyInt (s : LC) : Except PyErr Int :=
  let t := pyStrip s
  if t.head? = some '+' then pyIntCore t.tail
  else if t.head? = some '-' then (pyIntCore t.tail).map (fun n => -n)
  else pyIntCore t

/-- Python range(a, b) as a list (step 1). -/
def pyRange (a b : Int) : List Int :=
  (List.range (b - a).toNat).map (fun (i : Nat) => a + (i : Int))

/-! ### Embedded regular expressions

Each matcher embeds one concrete pattern from the sources.  The search
functions try a full match at every start position from the left, exactly
as re.search does; the per-position matchers are deterministic because in
every pattern a greedy digit run is followed by a character that cannot be
a digit, so shrinking the run during backtracking immediately fails. -/

/-- Match at the current position for the pattern: slash, optional spaces,
captured digit run, optional spaces, slash (chattisgarh parse_case_details
fallback and extract_case_number_from_purpose). -/
def matchS1At (cs : LC) : Option LC :=
  if cs.head? = some '/' then
    let p := takeDigits (dropWs cs.tail)
    if p.1.isEmpty then none
    else if (dropWs p.2).head? = some '/' then some p.1 else none
  else none

/-- re.search for the slash-digits-slash pattern. -/
def searchS1 : LC → Option LC
  | [] => none
  | c :: cs =>
    match matchS1At (c :: cs) with
    | some ds => some ds
    | none => searchS1 cs

/-- Match at the current position for a word-bounded digit run: the digit
run must start here, and the character after the run must not be a word
character (the leading boundary is checked by the caller). -/
def matchS2At (cs : LC) : Option LC :=
  let p := takeDigits cs
  if p.1.isEmpty then none
  else if p.2.head?.any isWordChar then none else some p.1

/-- Is there a word boundary between the previous character and a digit? -/
def boundaryBefore : Option Char → Bool
  | none => true
  | some c => !isWordChar c

/-- re.search for a word-bounded digit run, threading the previous
character for the boundary test. -/
def searchS2Aux : Option Char → LC → Option LC
  | _, [] => none
  | prev, c :: cs =>
    match (if boundaryBefore prev then matchS2At (c :: cs) else none) with
    | some ds => some ds
    | none => searchS2Aux (some c) cs

/-- re.search for the word-bounded digit run pattern. -/
def searchS2 (cs : LC) : Option LC := searchS2Aux none cs

/-- Match at the current position for: dash, optional spaces, captured
digit run, optional spaces, slash (delhi extract_case_number_numeric). -/
def matchS3At (cs : LC) : Option LC :=
  if cs.head? = some '-' then
    let p := takeDigits (dropWs cs.tail)
    if p.1.isEmpty then none
    else if (dropWs p.2).head? = some '/' then some p.1 else none
  else none

/-- re.search for the dash-digits-slash pattern. -/
def searchS3 : LC → Option LC
  | [] => none
  | c :: cs =>
    match matchS3At (c :: cs) with
    | some ds => some ds
    | none => searchS3 cs

/-- re.search for a bare captured digit run
(delhi extract_item_number_numeric). -/
def searchS4 : LC → Option LC
  | [] => none
  | c :: cs =>
    if c.isDigit then some (takeDigits (c :: cs)).1 else searchS4 cs

/-- Match at the current position for: slash, captured digit run, slash
(PortBlair extract_case_number_numeric, first pattern). -/
def matchS5At (cs : LC) : Option LC :=
  if cs.head? = some '/' then
    let p := takeDigits cs.tail
    if p.1.isEmpty then none
    else if p.2.head? = some '/' then some p.1 else none
  else none

/-- re.search for the slash-digits-slash (no spaces) pattern. -/
def searchS5 : LC → Option LC
  | [] => none
  | c :: cs =>
    match matchS5At (c :: cs) with
    | some ds => some ds
    | none => searchS5 cs

/-- Match at the current position for: slash, captured digit run
(PortBlair extract_case_number_numeric, fallback pattern). -/
def matchS6At (cs : LC) : Option LC :=
  if cs.head? = some '/' then
    let p := takeDigits cs.tail
    if p.1.isEmpty then none else some p.1
  else none

/-- re.search for the slash-digits pattern. -/
def searchS6 : LC → Option LC
  | [] => none
  | c :: cs =>
    match matchS6At (c :: cs) with
    | some ds => some ds
    | none => searchS6 cs

/-- Match at the current position for: captured digit run, dash, captured
digit run (PortBlair extract_serial_number_range, range pattern). -/
def matchS7At (cs : LC) : Option (LC × LC) :=
  let p := takeDigits cs
  if p.1.isEmpty then none
  else if p.2.head? = some '-' then
    let q := takeDigits p.2.tail
    if q.1.isEmpty then none else some (p.1, q.1)
  else none

/-- re.search for the digits-dash-digits pattern. -/
def searchS7 : LC → Option (LC × LC)
  | [] => none
  | c :: cs =>
    match matchS7At (c :: cs) with
    | some r => some r
    | none => searchS7 cs

/-- The greedy dot-plus at the end of the orissa pattern: the previously
consumed whitespace run is offered back (longest first) until the dot
class, which matches anything except a newline, can match at least one
character.  The captured text is the maximal newline-free run. -/
def dotPlusGo : LC → LC → Option LC
  | [], r =>
    match r with
    | c :: _ => if c = '\n' then none else some (r.takeWhile (fun x => x ≠ '\n'))
    | [] => none
  | d :: wrev', r =>
    match r with
    | c :: _ =>
      if c = '\n' then dotPlusGo wrev' (d :: r)
      else some (r.takeWhile (fun x => x ≠ '\n'))
    | [] => dotPlusGo wrev' (d :: r)

/-- Match at the current position for: colon, optional spaces, captured
digit run, literal dot, optional spaces, captured nonempty rest
(orissa extract_slno_and_case). -/
def matchS8At (cs : LC) : Option (LC × LC) :=
  if cs.head? = some ':' then
    let p := takeDigits (dropWs cs.tail)
    if p.1.isEmpty then none
    else if p.2.head? = some '.' then
      let w := takeWs p.2.tail
      match dotPlusGo w.1.reverse w.2 with
      | some cap => some (p.1, cap)
      | none => none
    else none
  else none

/-- re.search for the orissa serial-and-case pattern. -/
def searchS8 : LC → Option (LC × LC)
  | [] => none
  | c :: cs =>
    match matchS8At (c :: cs) with
    | some r => some r
    | none => searchS8 cs

/-- re.match (anchored) for the chattisgarh case pattern: captured
uppercase run with an optional parenthesised uppercase group, optional
spaces, slash, optional spaces, captured digit run, optional spaces,
slash, optional spaces, four captured digits. -/
def parenPart (u1 u2 : LC) : LC × LC :=
  if u2.head? = some '(' then
    let v := takeUppers u2.tail
    if v.1.isEmpty then (u1, u2)
    else if v.2.head? = some ')' then (u1 ++ '(' :: v.1 ++ [')'], v.2.tail)
    else (u1, u2)
  else (u1, u2)

def matchM1 (cs : LC) : Option (LC × LC × LC) :=
  let u := takeUppers cs
  if u.1.isEmpty then none
  else
    let tr := parenPart u.1 u.2
    if (dropWs tr.2).head? = some '/' then
      let p := takeDigits (dropWs (dropWs tr.2).tail)
      if p.1.isEmpty then none
      else if (dropWs p.2).head? = some '/' then
        let y := takeDigits (dropWs (dropWs p.2).tail)
        if 4 <= y.1.length then some (tr.1, p.1, y.1.take 4) else none
      else none
    else none

/-! ### Field normalizers

One definition per source function.  Each has a body returning
`Except PyErr _` (modelling the code inside the try) and a wrapper that
applies the blanket except clause of the source.  The only primitive in
these bodies that can raise is int(), modelled by `pyInt`. -/

/-- Body of parse_case_details (chattisgarh_display_board_api.py).
Returns (case_number, case_type, case_year). -/
def parse_case_detailsE : Option LC → Except PyErr (LC × LC × LC)
  | none => .ok ([], [], [])
  | some cs =>
    if cs.isEmpty then .ok ([], [], [])
    else if (pyStrip cs).isEmpty then .ok ([], [], [])
    else
      let t := pyStrip cs
      match matchM1 t with
      | some r => .ok (pyStrip r.2.1, pyStrip r.1, pyStrip r.2.2)
      | none =>
        match searchS1 t with
        | some ds => .ok (pyStrip ds, [], [])
        | none => .ok ([], [], [])

/-- parse_case_details with its blanket except clause. -/
def parse_case_details (s : Option LC) : LC × LC × LC :=
  match parse_case_detailsE s with
  | .ok v => v
  | .error _ => ([], [], [])

/-- Body of extract_case_number_numeric (delhi_display_scrapper_api.py):
dash-digits-slash pattern, then a word-bounded digit run as fallback. -/
def extract_case_number_numeric_delhiE : Option LC → Except PyErr LC
  | none => .ok []
  | some cs =>
    if cs.isEmpty then .ok []
    else if (pyStrip cs).isEmpty then .ok []
    else
      match searchS3 cs with
      | some ds => .ok (pyStrip ds)
      | none =>
        match searchS2 cs with
        | some ds => .ok (pyStrip ds)
        | none => .ok []

/-- extract_case_number_numeric (delhi) with its blanket except clause. -/
def extract_case_number_numeric_delhi (s : Option LC) : LC :=
  match extract_case_number_numeric_delhiE s with
  | .ok v => v
  | .error _ => []

/-- Body of extract_case_number_numeric (PortBlair_display_scrapper_api.py):
slash-digits-slash pattern, then slash-digits as fallback. -/
def extract_case_number_numeric_pbE : Option LC → Except PyErr LC
  | none => .ok []
  | some cs =>
    if cs.isEmpty then .ok []
    else if (pyStrip cs).isEmpty then .ok []
    else
      match searchS5 cs with
      | some ds => .ok (pyStrip ds)
      | none =>
        match searchS6 cs with
        | some ds => .ok (pyStrip ds)
        | none => .ok []

/-- extract_case_number_numeric (PortBlair) with its blanket except. -/
def extract_case_number_numeric_pb (s : Option LC) : LC :=
  match extract_case_number_numeric_pbE s with
  | .ok v => v
  | .error _ => []

/-- Body of extract_serial_number_range (PortBlair_display_scrapper_api.py):
digits-dash-digits expands to list(range(start, end+1)); otherwise a
word-bounded single number; otherwise the empty list. -/
def extract_serial_number_rangeE : Option LC → Except PyErr (List Int)
  | none => .ok []
  | some cs =>
    if cs.isEmpty then .ok []
    else if (pyStrip cs).isEmpty then .ok []
    else
      match searchS7 cs with
      | some r =>
        match pyInt r.1, pyInt r.2 with
        | .ok n1, .ok n2 => .ok (pyRange n1 (n2 + 1))
        | .error e, _ => .error e
        | _, .error e => .error e
      | none =>
        match searchS2 cs with
        | some ds =>
          match pyInt ds with
          | .ok n => .ok [n]
          | .error e => .error e
        | none => .ok []

/-- extract_serial_number_range with its blanket except clause. -/
def extract_serial_number_range (s : Option LC) : List Int :=
  match extract_serial_number_rangeE s with
  | .ok v => v
  | .error _ => []

/-- Body of extract_item_number_numeric (delhi_display_scrapper_api.py). -/
def extract_item_number_numericE : Option LC → Except PyErr LC
  | none => .ok []
  | some cs =>
    if cs.isEmpty then .ok []
    else if (pyStrip cs).isEmpty then .ok []
    else if cs = ['*'] then .ok []
    else
      match searchS4 cs with
      | some ds => .ok (pyStrip ds)
      | none => .ok []

/-- extract_item_number_numeric with its blanket except clause. -/
def extract_item_number_numeric (s : Option LC) : LC :=
  match extract_item_number_numericE s with
  | .ok v => v
  | .error _ => []

/-- Body of extract_slno_and_case (orissa_displayboard_scrapper.py).
Returns (sl_no, case_details); on no match the original input is passed
through as the second component (it can be None). -/
def extract_slno_and_caseE : Option LC → Except PyErr (LC × Option LC)
  | none => .ok ([], none)
  | some cs =>
    if cs.isEmpty then .ok ([], some cs)
    else if pyLower cs = ("not in session").toList then .ok ([], some cs)
    else
      match searchS8 cs with
      | some r => .ok (r.1, some (pyStrip r.2))
      | none => .ok ([], some cs)

/-- extract_slno_and_case with its blanket except clause (the except
branch also returns the input as the case component). -/
def extract_slno_and_case (s : Option LC) : LC × Option LC :=
  match extract_slno_and_caseE s with
  | .ok v => v
  | .error _ => ([], s)

/-! ### The chattisgarh record, Excel sink and backup

A scraped record is the dict built in scrape_display_board
(chattisgarh_display_board_api.py); the Excel file is its list of rows,
`none` when the file does not exist on disk. -/

/-- One court record as built by the chattisgarh scraper. -/
structure CourtData where
  court : LC
  listType : LC
  round : LC
  sno : LC
  caseNo : LC
  caseType : LC
  caseYear : LC
  fullCase : LC
  purpose : LC
  dateTime : LC
deriving DecidableEq, Repr

/-- The fixed column order the sink writes
(the df column selection in save_to_excel). -/
def excelColumns : List LC :=
  [("Court").toList, ("List Type").toList, ("Round").toList, ("SNo.").toList,
   ("Case No.").toList, ("Case Type").toList, ("Case Year").toList,
   ("Full Case").toList, ("Purpose").toList, ("DateTime").toList]

/-- A record projected onto the fixed column order. -/
def recordToRow (r : CourtData) : List LC :=
  [r.court, r.listType, r.round, r.sno, r.caseNo, r.caseType, r.caseYear,
   r.fullCase, r.purpose, r.dateTime]

/-- save_to_excel: returns False on an empty record set, otherwise appends
the projected rows to the existing file (creating it when absent) and
returns True.  ENABLE_EXCEL_SAVING is True in the source. -/
def save_to_excel (data : List CourtData) (file : Option (List (List LC))) :
    Bool × Option (List (List LC)) :=
  if data.isEmpty then (false, file)
  else
    match file with
    | some rows => (true, some (rows ++ data.map recordToRow))
    | none => (true, some (data.map recordToRow))

/-- create_backup_from_main_excel: skips (False) when the main file does
not exist or is empty, otherwise the backup is a full copy of its rows. -/
def create_backup_from_main_excel (file : Option (List (List LC))) :
    Bool × Option (List (List LC)) :=
  match file with
  | none => (false, none)
  | some rows => if rows.isEmpty then (false, none) else (true, some rows)

/-- Rows of an optional file (a missing file has no rows). -/
def rowsOf : Option (List (List LC)) → List (List LC)
  | none => []
  | some rows => rows

/-! ### Driver loop state (chattisgarh main; madras main is identical) -/

/-- BACKUP_CYCLE_INTERVAL from the configuration block. -/
def BACKUP_CYCLE_INTERVAL : Nat := 60

/-- The mutable state of the polling loop in main. -/
structure LoopState where
  dateFolder : LC
  dayFile : Option (List (List LC))
  cycleCount : Nat
  lastBackupCycle : Nat
  firstCycle : Bool
  backups : List (List (List LC))
deriving DecidableEq, Repr

/-- The per-cycle environment: the recomputed today-folder name, the
records returned by the scrape, and whether the Excel write raises. -/
structure CycleInput where
  todayFolder : LC
  records : List CourtData
  saveErr : Bool
deriving DecidableEq, Repr

/-- One iteration of the while-True loop in main (Excel side; the API
posting does not touch this state).  Mirrors: increment cycle_count;
date-rollover check resetting folder, file, first_cycle, counters; scrape;
save when records are nonempty; after a successful save, backup when
cycle_count - last_backup_cycle reaches BACKUP_CYCLE_INTERVAL. -/
def stepCycle (s : LoopState) (inp : CycleInput) : LoopState :=
  let rolled := inp.todayFolder != s.dateFolder
  let folder := if rolled then inp.todayFolder else s.dateFolder
  let dayFile0 := if rolled then none else s.dayFile
  let first0 := if rolled then true else s.firstCycle
  let lastBk0 := if rolled then 0 else s.lastBackupCycle
  let cc := if rolled then 1 else s.cycleCount + 1
  if inp.records.isEmpty then
    { dateFolder := folder, dayFile := dayFile0, cycleCount := cc,
      lastBackupCycle := lastBk0, firstCycle := first0, backups := s.backups }
  else
    let saved :=
      if inp.saveErr then (false, dayFile0) else save_to_excel inp.records dayFile0
    if saved.1 then
      if BACKUP_CYCLE_INTERVAL ≤ cc - lastBk0 then
        let bk := create_backup_from_main_excel saved.2
        { dateFolder := folder, dayFile := saved.2, cycleCount := cc,
          lastBackupCycle := if bk.1 then cc else lastBk0, firstCycle := false,
          backups := s.backups ++ bk.2.toList }
      else
        { dateFolder := folder, dayFile := saved.2, cycleCount := cc,
          lastBackupCycle := lastBk0, firstCycle := false, backups := s.backups }
    else
      { dateFolder := folder, dayFile := saved.2, cycleCount := cc,
        lastBackupCycle := lastBk0, firstCycle := first0, backups := s.backups }

/-- Run the loop over a list of cycle environments. -/
def runLoop (s : LoopState) (inps : List CycleInput) : LoopState :=
  inps.foldl stepCycle s

/-- The loop state right after the startup code of main. -/
def initialState (folder : LC) (existing : Option (List (List LC))) : LoopState :=
  { dateFolder := folder, dayFile := existing, cycleCount := 0,
    lastBackupCycle := 0, firstCycle := true, backups := [] }

/-- Number of cycles of a trace whose Excel persist succeeds (the save is
attempted exactly when the scrape returned records, and succeeds exactly
when it does not raise). -/
def countSuccessfulPersists (inps : List CycleInput) : Nat :=
  (inps.filter (fun i => !i.records.isEmpty && !i.saveErr)).length

/-! ### Remote ingestion sink (chattisgarh API functions) -/

/-- extract_case_number_from_purpose (chattisgarh): slash-digits-slash,
then any word-bounded number, then the empty string. -/
def extract_case_number_from_purpose : Option LC → LC
  | none => []
  | some cs =>
    if cs.isEmpty then []
    else if (pyStrip cs).isEmpty then []
    else
      match searchS1 cs with
      | some ds => pyStrip ds
      | none =>
        match searchS2 cs with
        | some ds => pyStrip ds
        | none => []

/-- Body of the serial-number computation in post_court_data_to_api: if
the Full Case value contains a dash, int() of the stripped text before the
first dash; otherwise the first word-bounded number, defaulting to 0. -/
def serial_number_ofE (fc : LC) : Except PyErr Int :=
  if fc.contains '-' then
    pyInt (pyStrip (fc.takeWhile (fun c => c ≠ '-')))
  else
    match searchS2 fc with
    | some ds => pyInt ds
    | none => .ok 0

/-- The serial number put into the payload (ValueError and TypeError are
caught, giving 0). -/
def serial_number_of (fc : LC) : Int :=
  match serial_number_ofE fc with
  | .ok v => v
  | .error _ => 0

/-- Body of the list-number computation in post_court_data_to_api:
int(list_number) when the List Type value is truthy, else 0. -/
def list_number_ofE (lt : LC) : Except PyErr Int :=
  if lt.isEmpty then .ok 0 else pyInt lt

/-- The list number put into the payload (exceptions give 0). -/
def list_number_of (lt : LC) : Int :=
  match list_number_ofE lt with
  | .ok v => v
  | .error _ => 0

/-- The JSON payload of post_court_data_to_api.  The date and time fields
are derived from the wall clock / DateTime formatting and are not
modelled; no claim mentions them. -/
structure ApiPayload where
  benchName : LC
  courtHallNumber : LC
  caseNumber : LC
  serialNumber : Int
  stage : LC
  listNumber : Int
deriving DecidableEq, Repr

/-- Payload construction from a record (field mapping of the source:
Purpose feeds caseNumber numerically, Full Case feeds serialNumber). -/
def build_api_payload (r : CourtData) : ApiPayload :=
  { benchName := ("Bilaspur").toList
    courtHallNumber := r.court
    caseNumber := extract_case_number_from_purpose (some r.purpose)
    serialNumber := serial_number_of r.fullCase
    stage := r.purpose
    listNumber := list_number_of r.listType }

/-- The outcome of one HTTP POST, as seen by the requests library: a
response with a status code, a body that may or may not parse as JSON and
a body text; or a timeout; or a connection error; or any other exception. -/
inductive ApiOutcome where
  | response (status : Nat) (jsonBody : Option LC) (text : LC)
  | timeout
  | connError
  | otherExc (msg : LC)
deriving DecidableEq, Repr

/-- The message built for a non-2xx response. -/
def apiErrorMessage (status : Nat) (text : LC) : LC :=
  ("API Error ").toList ++ (Nat.repr status).toList ++ (": ").toList ++ text

/-- post_court_data_to_api reduced to a (bool, message) pair.  On status
200 or 201 the code returns response.json(); if the body is not JSON that
call raises and the blanket except turns it into a False result. -/
def post_court_data_to_api (r : CourtData) (o : ApiOutcome) : Bool × LC :=
  let _payload := build_api_payload r
  match o with
  | .response st jb txt =>
    if st = 200 ∨ st = 201 then
      match jb with
      | some j => (true, j)
      | none => (false, ("Error: response body is not valid JSON").toList)
    else (false, apiErrorMessage st txt)
  | .timeout => (false, ("Request timeout").toList)
  | .connError => (false, ("Connection error").toList)
  | .otherExc m => (false, ("Error: ").toList ++ m)

/-- The loop of post_all_courts_to_api: one POST per record, counting
successes and failures, collecting one error entry (court, purpose,
message) per failed record and logging every payload posted. -/
def postLoop (outcomes : Nat → ApiOutcome) :
    Nat → List CourtData → Nat × Nat × List (LC × LC × LC) × List ApiPayload
  | _, [] => (0, 0, [], [])
  | idx, r :: rs =>
    let res := post_court_data_to_api r (outcomes idx)
    let rest := postLoop outcomes (idx + 1) rs
    if res.1 then
      (rest.1 + 1, rest.2.1, rest.2.2.1, build_api_payload r :: rest.2.2.2)
    else
      (rest.1, rest.2.1 + 1, (r.court, r.purpose, res.2) :: rest.2.2.1,
       build_api_payload r :: rest.2.2.2)

/-- The summary dict returned by post_all_courts_to_api. -/
structure ApiSummary where
  total : Nat
  successful : Nat
  failed : Nat
  errors : List (LC × LC × LC)
deriving DecidableEq, Repr

/-- post_all_courts_to_api (ENABLE_API_POSTING is True in the source).
After the loop the code prints a success rate successful/total, which
raises ZeroDivisionError when the batch is empty; otherwise the summary
and the list of posted payloads result. -/
def post_all_courts_to_api (recs : List CourtData) (outcomes : Nat → ApiOutcome) :
    Except PyErr (ApiSummary × List ApiPayload) :=
  let l := postLoop outcomes 0 recs
  if recs.length = 0 then .error .zeroDivisionError
  else
    .ok ({ total := recs.length, successful := l.1, failed := l.2.1,
           errors := l.2.2.1 }, l.2.2.2)

/-- The failure details actually shown: the first five error entries. -/
def shownFailureDetails (s : ApiSummary) : List (LC × LC × LC) :=
  s.errors.take 5

/-! ### Row extraction loop (chattisgarh scrape_display_board)

A DOM cell is abstracted to its visible text (extract_cell_text never
raises: it catches internally and returns the empty string) plus its
rowspan attribute.  The per-row body can raise only at int(rowspan). -/

/-- A table cell as read by the scraper. -/
structure DomCell where
  text : LC
  rowspan : Option LC
deriving DecidableEq, Repr

/-- A table body row. -/
structure DomRow where
  cells : List DomCell
deriving DecidableEq, Repr

/-- The body of one iteration of the row loop: a single-cell marquee row
and a row with fewer than five cells are skipped; a leading cell whose
rowspan attribute parses to an int greater than one starts a new court and
the columns map directly; otherwise the columns are shifted left by one
and the carried court number is used.  Returns the updated carried court
and the record, if any. -/
def processRow (t court : LC) (row : DomRow) :
    Except PyErr (LC × Option CourtData) :=
  match row.cells with
  | [_] => .ok (court, none)
  | c0 :: c1 :: c2 :: c3 :: c4 :: rest => do
    let direct ←
      match c0.rowspan with
      | none => pure false
      | some a =>
        if a.isEmpty then pure false
        else do
          let n ← pyInt a
          pure (decide (1 < n))
    let court' := if direct then c0.text else court
    let listType := if direct then c1.text else c0.text
    let roundVal := if direct then c2.text else c1.text
    let sno := if direct then c3.text else c2.text
    let caseFull := if direct then c4.text else c3.text
    let purpose :=
      if direct then
        match rest with
        | p :: _ => p.text
        | [] => []
      else c4.text
    let parsed := parse_case_details (some caseFull)
    .ok (court', some
      { court := court', listType := listType, round := roundVal, sno := sno,
        caseNo := parsed.1, caseType := parsed.2.1, caseYear := parsed.2.2,
        fullCase := caseFull, purpose := purpose, dateTime := t })
  | _ => .ok (court, none)

/-- The carried court value the loop would hold before a given row. -/
def nextCourt (t c : LC) (row : DomRow) : LC :=
  match processRow t c row with
  | .ok r => r.1
  | .error _ => c

/-- The carried court value before each row of a list. -/
def courtScan (t : LC) : LC → List DomRow → List LC
  | _, [] => []
  | c, row :: rows => c :: courtScan t (nextCourt t c row) rows

/-- The carried court value after processing a list of rows. -/
def courtAfter (t : LC) : LC → List DomRow → LC
  | c, [] => c
  | c, row :: rows => courtAfter t (nextCourt t c row) rows

/-- The row loop of scrape_display_board: the try/except around the body
skips a row whose processing raises and continues with the next row,
keeping the carried court unchanged. -/
def scrape_display_board_rows (t : LC) : LC → List DomRow → List CourtData
  | _, [] => []
  | c, row :: rows =>
    match processRow t c row with
    | .ok r =>
      match r.2 with
      | some rec => rec :: scrape_display_board_rows t r.1 rows
      | none => scrape_display_board_rows t r.1 rows
    | .error _ => scrape_display_board_rows t c rows

/-- Modelled from the spec: the records of exactly those rows whose
processing does not raise, each processed with the court value carried to
it ("any per-row exception is caught, logged, and the row is skipped"). -/
def specRecords (t c : LC) (rows : List DomRow) : List CourtData :=
  (rows.zip (courtScan t c rows)).filterMap fun p =>
    match processRow t p.2 p.1 with
    | .ok r => r.2
    | .error _ => none

/-- A record used to instantiate witnesses. -/
def sampleRecord : CourtData :=
  { court := ("1").toList, listType := ("D").toList, round := ("1").toList,
    sno := ("5").toList, caseNo := ("954").toList, caseType := ("WA").toList,
    caseYear := ("2025").toList, fullCase := ("WA / 954 / 2025").toList,
    purpose := ("HEARING").toList, dateTime := ("2026-01-05 10:00:00").toList }

/-- The driver state used to instantiate the C4 witness. -/
def c4State : LoopState :=
  { dateFolder := ("d").toList, dayFile := some [[("x").toList]],
    cycleCount := 99, lastBackupCycle := 10, firstCycle := false, backups := [] }

/-- The cycle environment used to instantiate the C4 witness. -/
def c4Input : CycleInput :=
  { todayFolder := ("d").toList, records := [sampleRecord], saveErr := false }

/-- The 60-cycle trace of the C4 counterexample: 59 cycles scrape nothing,
then one cycle scrapes a record and persists it successfully. -/
def c4Trace : List CycleInput :=
  (List.replicate 59
    { todayFolder := ("d").toList, records := [], saveErr := false }) ++
  [{ todayFolder := ("d").toList, records := [sampleRecord], saveErr := false }]

/-- Modelled from the spec (amended): a POST counts as successful exactly
when the HTTP status is 200 or 201 and the response body parses as JSON;
every other outcome, including a 2xx response whose body is not JSON, a
non-2xx status, a timeout, a connection error or any other exception, is
a failure. -/
def postSuccessSpec : ApiOutcome → Bool
  | .response st (some _) _ => decide (st = 200 ∨ st = 201)
  | _ => false

/-! ### Helper predicates and lemmas -/

/-- No character of the list is a decimal digit. -/
abbrev NoDigit (l : LC) : Prop := ∀ c ∈ l, c.isDigit = false

/-- Every character of the list is a decimal digit. -/
abbrev AllDigit (l : LC) : Prop := ∀ c ∈ l, c.isDigit = true

/-- If the list is nonempty, its head is not a digit. -/
def HeadNotDigit (l : LC) : Prop := ∀ c t, l = c :: t → c.isDigit = false

/-- If the list is nonempty, its head is neither whitespace nor a digit. -/
def HeadStops (l : LC) : Prop := ∀ c t, l = c :: t → pyIsSpace c = false ∧ c.isDigit = false

/-- If the list is nonempty, its head is not a word character. -/
def HeadNotWord (l : LC) : Prop := ∀ c t, l = c :: t → isWordChar c = false

lemma not_space_of_digit {c : Char} (h : c.isDigit = true) : pyIsSpace c = false := by
  unfold pyIsSpace
  by_contra hc
  simp only [Bool.not_eq_false, Bool.or_eq_true, decide_eq_true_eq] at hc
  rcases hc with ((((h1 | h1) | h1) | h1) | h1) | h1 <;> subst h1 <;> simp_all

lemma word_of_digit {c : Char} (h : c.isDigit = true) : isWordChar c = true := by
  simp [isWordChar, h]

lemma not_digit_of_not_word {c : Char} (h : isWordChar c = false) : c.isDigit = false := by
  unfold isWordChar at h
  simp only [Bool.or_eq_false_iff] at h
  exact h.1.2

lemma headNotDigit_of_headNotWord {l : LC} (h : HeadNotWord l) : HeadNotDigit l := by
  intro c t hl
  exact not_digit_of_not_word (h c t hl)

lemma headNotDigit_append {u v : LC} (hu : NoDigit u) (hv : HeadNotDigit v) :
    HeadNotDigit (u ++ v) := by
  intro c t h
  cases u with
  | nil => exact hv c t h
  | cons x u' =>
    simp only [List.cons_append, List.cons.injEq] at h
    exact h.1 ▸ hu x (List.mem_cons_self x u')

lemma takeDigits_fst_all : ∀ l : LC, AllDigit (takeDigits l).1 := by
  intro l
  induction l with
  | nil => intro c hc; simp [takeDigits] at hc
  | cons x t ih =>
    intro c hc
    by_cases hx : x.isDigit = true
    · simp only [takeDigits, hx, if_true] at hc
      rcases List.mem_cons.mp hc with h | h
      · exact h ▸ hx
      · exact ih c h
    · simp only [takeDigits, hx] at hc
      simp at hc

lemma takeDigits_of_headNotDigit {l : LC} (h : HeadNotDigit l) : takeDigits l = ([], l) := by
  cases l with
  | nil => rfl
  | cons c t => simp [takeDigits, h c t rfl]

lemma takeDigits_of_append {d r : LC} (hd : AllDigit d) (hr : HeadNotDigit r) :
    takeDigits (d ++ r) = (d, r) := by
  induction d with
  | nil => exact takeDigits_of_headNotDigit hr
  | cons x d' ih =>
    have hx : x.isDigit = true := hd x (List.mem_cons_self x d')
    have := ih (fun c hc => hd c (List.mem_cons_of_mem x hc))
    simp [takeDigits, hx, this]

lemma takeDigits_of_allDigit {d : LC} (hd : AllDigit d) : takeDigits d = (d, []) := by
  have := takeDigits_of_append (r := []) hd (by intro c t h; cases h)
  simpa using this

lemma mem_of_takeDigits_snd {c : Char} : ∀ {l : LC}, c ∈ (takeDigits l).2 → c ∈ l := by
  intro l
  induction l with
  | nil => intro h; simp [takeDigits] at h
  | cons x t ih =>
    intro h
    by_cases hx : x.isDigit = true
    · simp only [takeDigits, hx, if_true] at h
      exact List.mem_cons_of_mem x (ih h)
    · simp only [takeDigits, hx] at h
      simpa using h

lemma mem_of_takeUppers_snd {c : Char} : ∀ {l : LC}, c ∈ (takeUppers l).2 → c ∈ l := by
  intro l
  induction l with
  | nil => intro h; simp [takeUppers] at h
  | cons x t ih =>
    intro h
    by_cases hx : x.isUpper = true
    · simp only [takeUppers, hx, if_true] at h
      exact List.mem_cons_of_mem x (ih h)
    · simp only [takeUppers, hx] at h
      simpa using h

lemma dropWs_of_head {c : Char} {t : LC} (h : pyIsSpace c = false) :
    dropWs (c :: t) = c :: t := by
  simp [dropWs, h]

lemma mem_of_dropWs {c : Char} : ∀ {l : LC}, c ∈ dropWs l → c ∈ l := by
  intro l
  induction l with
  | nil => intro h; simp [dropWs] at h
  | cons x t ih =>
    intro h
    by_cases hx : pyIsSpace x = true
    · simp only [dropWs, hx, if_true] at h
      exact List.mem_cons_of_mem x (ih h)
    · simp only [dropWs, hx] at h
      simpa using h

lemma takeDigits_dropWs_nil {u v : LC} (hu : NoDigit u) (hv : HeadStops v) :
    (takeDigits (dropWs (u ++ v))).1 = [] := by
  induction u with
  | nil =>
    cases v with
    | nil => rfl
    | cons c t =>
      have := hv c t rfl
      simp only [List.nil_append]
      rw [dropWs_of_head this.1,
        takeDigits_of_headNotDigit (by intro x s h; cases h; exact this.2)]
  | cons x u' ih =>
    have hx : x.isDigit = false := hu x (List.mem_cons_self x u')
    have hu' : NoDigit u' := fun c hc => hu c (List.mem_cons_of_mem x hc)
    by_cases hs : pyIsSpace x = true
    · simp only [List.cons_append, dropWs, hs, if_true]
      exact ih hu'
    · simp only [List.cons_append, dropWs, hs, if_false]
      rw [takeDigits_of_headNotDigit (by intro c s h; cases h; exact hx)]

lemma pyStripLeft_of_head {c : Char} {t : LC} (h : pyIsSpace c = false) :
    pyStripLeft (c :: t) = c :: t := by
  simp [pyStripLeft, h]

lemma pyStripLeft_cons_space {c : Char} {t : LC} (h : pyIsSpace c = true) :
    pyStripLeft (c :: t) = pyStripLeft t := by
  simp [pyStripLeft, h]

lemma pyStripLeft_of_nospace {l : LC} (h : ∀ c ∈ l, pyIsSpace c = false) :
    pyStripLeft l = l := by
  cases l with
  | nil => rfl
  | cons c t => exact pyStripLeft_of_head (h c (List.mem_cons_self c t))

lemma mem_of_pyStripLeft {c : Char} : ∀ {l : LC}, c ∈ pyStripLeft l → c ∈ l := by
  intro l
  induction l with
  | nil => intro h; simp [pyStripLeft] at h
  | cons x t ih =>
    intro h
    by_cases hx : pyIsSpace x = true
    · simp only [pyStripLeft, hx, if_true] at h
      exact List.mem_cons_of_mem x (ih h)
    · simp only [pyStripLeft, hx] at h
      simpa using h

lemma mem_pyStripLeft {c : Char} (hc : pyIsSpace c = false) :
    ∀ {l : LC}, c ∈ l → c ∈ pyStripLeft l := by
  intro l
  induction l with
  | nil => intro h; cases h
  | cons x t ih =>
    intro h
    by_cases hx : pyIsSpace x = true
    · rcases List.mem_cons.mp h with h1 | h1
      · subst h1; rw [hx] at hc; cases hc
      · simp only [pyStripLeft, hx, if_true]
        exact ih h1
    · simpa [pyStripLeft, hx] using h

lemma mem_of_pyStrip {c : Char} {l : LC} (h : c ∈ pyStrip l) : c ∈ l := by
  unfold pyStrip at h
  rw [List.mem_reverse] at h
  have := mem_of_pyStripLeft h
  rw [List.mem_reverse] at this
  exact mem_of_pyStripLeft this

lemma mem_pyStrip {c : Char} {l : LC} (hc : pyIsSpace c = false) (h : c ∈ l) :
    c ∈ pyStrip l := by
  unfold pyStrip
  rw [List.mem_reverse]
  exact mem_pyStripLeft hc (by rw [List.mem_reverse]; exact mem_pyStripLeft hc h)

lemma pyStrip_ne_nil {c : Char} {l : LC} (hc : pyIsSpace c = false) (h : c ∈ l) :
    pyStrip l ≠ [] := by
  intro he
  have hm := mem_pyStrip hc h
  rw [he] at hm
  cases hm

lemma pyStrip_of_nospace {l : LC} (h : ∀ c ∈ l, pyIsSpace c = false) :
    pyStrip l = l := by
  unfold pyStrip
  rw [pyStripLeft_of_nospace h,
    pyStripLeft_of_nospace (fun c hc => h c (List.mem_reverse.mp hc)), List.reverse_reverse]

lemma pyStrip_of_allDigit {l : LC} (h : AllDigit l) : pyStrip l = l :=
  pyStrip_of_nospace (fun c hc => not_space_of_digit (h c hc))

lemma pyInt_of_digits {d : LC} (h0 : d ≠ []) (h : AllDigit d) :
    pyInt d = .ok ((digitsVal d : Nat) : Int) := by
  unfold pyInt
  rw [pyStrip_of_allDigit h]
  have hall : d.all Char.isDigit = true := List.all_eq_true.mpr h
  cases d with
  | nil => cases h0 rfl
  | cons c t =>
    have hc : c.isDigit = true := h c (List.mem_cons_self c t)
    have hplus : c ≠ '+' := by intro he; subst he; simp at hc
    have hminus : c ≠ '-' := by intro he; subst he; simp at hc
    simp [pyIntCore, hplus, hminus, hall]

lemma pyInt_err_of_noDigit {s : LC} (h : NoDigit s) : (pyInt s).isOk = false := by
  unfold pyInt
  have mem_s : ∀ c ∈ pyStrip s, c.isDigit = false := fun c hc => h c (mem_of_pyStrip hc)
  have coreErr : ∀ u : LC, (∀ c ∈ u, c.isDigit = false) → (pyIntCore u).isOk = false := by
    intro u hu
    cases u with
    | nil => rfl
    | cons c r =>
      have : c.isDigit = false := hu c (List.mem_cons_self c r)
      simp [pyIntCore, List.all_cons, this, Except.isOk, Except.toBool]
  have tailNoDigit : ∀ c ∈ (pyStrip s).tail, c.isDigit = false := by
    intro c hc
    exact mem_s c (List.mem_of_mem_tail hc)
  by_cases hp : (pyStrip s).head? = some '+'
  · simp only [hp, if_true]
    exact coreErr _ tailNoDigit
  · by_cases hm : (pyStrip s).head? = some '-'
    · simp only [hp, if_false, hm, if_true]
      have := coreErr _ tailNoDigit
      cases hcore : pyIntCore (pyStrip s).tail with
      | ok v => rw [hcore] at this; simp [Except.isOk, Except.toBool] at this
      | error e => simp [Except.map, Except.isOk, Except.toBool]
    · simp only [hp, if_false, hm]
      exact coreErr _ mem_s

lemma takeDigits_dropWs_nil_of_noDigit {u : LC} (hu : NoDigit u) :
    (takeDigits (dropWs u)).1 = [] := by
  have := takeDigits_dropWs_nil (v := []) hu (by intro c t h; cases h)
  simpa using this

/-! Lemmas about the searches: where a match cannot start, the search
skips; on digit-free strings every search fails. -/

lemma matchS1At_none {s : LC} (h : NoDigit s) : matchS1At s = none := by
  unfold matchS1At
  cases s with
  | nil => simp
  | cons c cs =>
    by_cases hc : c = '/'
    · subst hc
      have h1 : NoDigit cs := fun x hx => h x (List.mem_cons_of_mem _ hx)
      simp [takeDigits_dropWs_nil_of_noDigit h1]
    · simp [hc]

lemma searchS1_none {s : LC} (h : NoDigit s) : searchS1 s = none := by
  induction s with
  | nil => rfl
  | cons c cs ih =>
    have h1 : NoDigit cs := fun x hx => h x (List.mem_cons_of_mem c hx)
    unfold searchS1
    rw [matchS1At_none h]
    exact ih h1

lemma matchS2At_none {s : LC} (h : HeadNotDigit s) : matchS2At s = none := by
  unfold matchS2At
  rw [takeDigits_of_headNotDigit h]
  simp

lemma matchS2At_some {d r : LC} (hd0 : d ≠ []) (hd : AllDigit d)
    (hr : HeadNotWord r) : matchS2At (d ++ r) = some d := by
  unfold matchS2At
  rw [takeDigits_of_append hd (headNotDigit_of_headNotWord hr)]
  cases r with
  | nil => simp [hd0]
  | cons c t => simp [hd0, Option.any, hr c t rfl]

lemma searchS2Aux_none {s : LC} (h : NoDigit s) : ∀ prev, searchS2Aux prev s = none := by
  induction s with
  | nil => intro prev; rfl
  | cons c cs ih =>
    intro prev
    have h1 : NoDigit cs := fun x hx => h x (List.mem_cons_of_mem c hx)
    have hm : matchS2At (c :: cs) = none :=
      matchS2At_none (by intro x t hx; cases hx; exact h c (List.mem_cons_self c cs))
    unfold searchS2Aux
    cases hb : boundaryBefore prev <;> simp [hm] <;> exact ih h1 (some c)

lemma searchS2Aux_through {u : LC} (hu : NoDigit u) {sep : Char}
    (hsep : sep.isDigit = false) (rest : LC) :
    ∀ prev, searchS2Aux prev (u ++ sep :: rest) = searchS2Aux (some sep) rest := by
  induction u with
  | nil =>
    intro prev
    have hm : matchS2At (sep :: rest) = none :=
      matchS2At_none (by intro x t hx; cases hx; exact hsep)
    conv_lhs => unfold searchS2Aux
    cases hb : boundaryBefore prev <;> simp [hm, hb]
  | cons c u' ih =>
    intro prev
    have h1 : NoDigit u' := fun x hx => hu x (List.mem_cons_of_mem c hx)
    have hm : matchS2At (c :: (u' ++ sep :: rest)) = none := by
      apply matchS2At_none
      intro x t hx
      cases hx
      exact hu c (List.mem_cons_self c u')
    rw [List.cons_append]
    conv_lhs => unfold searchS2Aux
    cases hb : boundaryBefore prev <;> simp [hm, hb] <;> exact ih h1 (some c)

lemma searchS2Aux_found {sep : Char} {d r : LC} (hsep : isWordChar sep = false)
    (hd0 : d ≠ []) (hd : AllDigit d) (hr : HeadNotWord r) :
    searchS2Aux (some sep) (d ++ r) = some d := by
  cases d with
  | nil => cases hd0 rfl
  | cons c d' =>
    have hb : boundaryBefore (some sep) = true := by simp [boundaryBefore, hsep]
    have hm : matchS2At ((c :: d') ++ r) = some (c :: d') :=
      matchS2At_some hd0 hd hr
    rw [List.cons_append]
    unfold searchS2Aux
    rw [hb]
    simp only [if_true]
    rw [← List.cons_append, hm]

lemma matchS3At_of_ne {c : Char} {cs : LC} (hc : c ≠ '-') : matchS3At (c :: cs) = none := by
  simp [matchS3At, hc]

lemma matchS3At_dash {cs : LC} (h : (takeDigits (dropWs cs)).1 = []) :
    matchS3At ('-' :: cs) = none := by
  simp [matchS3At, h]

lemma matchS3At_none {s : LC} (h : NoDigit s) : matchS3At s = none := by
  cases s with
  | nil => simp [matchS3At]
  | cons c cs =>
    by_cases hc : c = '-'
    · subst hc
      exact matchS3At_dash
        (takeDigits_dropWs_nil_of_noDigit (fun x hx => h x (List.mem_cons_of_mem _ hx)))
    · exact matchS3At_of_ne hc

lemma searchS3_append {u v : LC} (hu : NoDigit u) (hv : HeadStops v) :
    searchS3 (u ++ v) = searchS3 v := by
  induction u with
  | nil => rfl
  | cons c u' ih =>
    have h1 : NoDigit u' := fun x hx => hu x (List.mem_cons_of_mem c hx)
    have hm : matchS3At (c :: (u' ++ v)) = none := by
      by_cases hc : c = '-'
      · subst hc
        exact matchS3At_dash (takeDigits_dropWs_nil h1 hv)
      · exact matchS3At_of_ne hc
    rw [List.cons_append]
    conv_lhs => unfold searchS3
    rw [hm]
    exact ih h1

lemma searchS3_none_of_noDash {s : LC} (h : ∀ c ∈ s, c ≠ '-') : searchS3 s = none := by
  induction s with
  | nil => rfl
  | cons c cs ih =>
    have h1 : ∀ x ∈ cs, x ≠ '-' := fun x hx => h x (List.mem_cons_of_mem c hx)
    unfold searchS3
    rw [matchS3At_of_ne (h c (List.mem_cons_self c cs))]
    exact ih h1

lemma searchS3_none {s : LC} (h : NoDigit s) : searchS3 s = none := by
  induction s with
  | nil => rfl
  | cons c cs ih =>
    have h1 : NoDigit cs := fun x hx => h x (List.mem_cons_of_mem c hx)
    unfold searchS3
    rw [matchS3At_none h]
    exact ih h1

lemma searchS4_none {s : LC} (h : NoDigit s) : searchS4 s = none := by
  induction s with
  | nil => rfl
  | cons c cs ih =>
    have h1 : NoDigit cs := fun x hx => h x (List.mem_cons_of_mem c hx)
    unfold searchS4
    rw [h c (List.mem_cons_self c cs)]
    simpa using ih h1

lemma matchS5At_of_ne {c : Char} {cs : LC} (hc : c ≠ '/') : matchS5At (c :: cs) = none := by
  simp [matchS5At, hc]

lemma matchS5At_slash {cs : LC} (h : (takeDigits cs).1 = []) :
    matchS5At ('/' :: cs) = none := by
  simp [matchS5At, h]

lemma searchS5_append {u v : LC} (hu : NoDigit u) (hv : HeadNotDigit v) :
    searchS5 (u ++ v) = searchS5 v := by
  induction u with
  | nil => rfl
  | cons c u' ih =>
    have h1 : NoDigit u' := fun x hx => hu x (List.mem_cons_of_mem c hx)
    have hm : matchS5At (c :: (u' ++ v)) = none := by
      by_cases hc : c = '/'
      · subst hc
        exact matchS5At_slash
          (by rw [takeDigits_of_headNotDigit (headNotDigit_append h1 hv)])
      · exact matchS5At_of_ne hc
    rw [List.cons_append]
    conv_lhs => unfold searchS5
    rw [hm]
    exact ih h1

lemma searchS5_append_noSlash {u v : LC} (hu : ∀ c ∈ u, c ≠ '/') :
    searchS5 (u ++ v) = searchS5 v := by
  induction u with
  | nil => rfl
  | cons c u' ih =>
    have h1 : ∀ x ∈ u', x ≠ '/' := fun x hx => hu x (List.mem_cons_of_mem c hx)
    rw [List.cons_append]
    conv_lhs => unfold searchS5
    rw [matchS5At_of_ne (hu c (List.mem_cons_self c u'))]
    exact ih h1

lemma searchS5_none {s : LC} (h : NoDigit s) : searchS5 s = none := by
  have := searchS5_append (v := []) h (by intro c t hc; cases hc)
  simpa using this

lemma matchS6At_of_ne {c : Char} {cs : LC} (hc : c ≠ '/') : matchS6At (c :: cs) = none := by
  simp [matchS6At, hc]

lemma searchS6_append {u v : LC} (hu : NoDigit u) (hv : HeadNotDigit v) :
    searchS6 (u ++ v) = searchS6 v := by
  induction u with
  | nil => rfl
  | cons c u' ih =>
    have h1 : NoDigit u' := fun x hx => hu x (List.mem_cons_of_mem c hx)
    have hm : matchS6At (c :: (u' ++ v)) = none := by
      by_cases hc : c = '/'
      · subst hc
        simp [matchS6At, takeDigits_of_headNotDigit (headNotDigit_append h1 hv)]
      · exact matchS6At_of_ne hc
    rw [List.cons_append]
    conv_lhs => unfold searchS6
    rw [hm]
    exact ih h1

lemma searchS6_append_noSlash {u v : LC} (hu : ∀ c ∈ u, c ≠ '/') :
    searchS6 (u ++ v) = searchS6 v := by
  induction u with
  | nil => rfl
  | cons c u' ih =>
    have h1 : ∀ x ∈ u', x ≠ '/' := fun x hx => hu x (List.mem_cons_of_mem c hx)
    rw [List.cons_append]
    conv_lhs => unfold searchS6
    rw [matchS6At_of_ne (hu c (List.mem_cons_self c u'))]
    exact ih h1

lemma searchS6_none {s : LC} (h : NoDigit s) : searchS6 s = none := by
  have := searchS6_append (v := []) h (by intro c t hc; cases hc)
  simpa using this

lemma matchS7At_none {s : LC} (h : HeadNotDigit s) : matchS7At s = none := by
  unfold matchS7At
  rw [takeDigits_of_headNotDigit h]
  simp

lemma searchS7_append {u v : LC} (hu : NoDigit u) :
    searchS7 (u ++ v) = searchS7 v := by
  induction u with
  | nil => rfl
  | cons c u' ih =>
    have h1 : NoDigit u' := fun x hx => hu x (List.mem_cons_of_mem c hx)
    have hm : matchS7At (c :: (u' ++ v)) = none :=
      matchS7At_none (by intro x t hx; cases hx; exact hu c (List.mem_cons_self c u'))
    rw [List.cons_append]
    conv_lhs => unfold searchS7
    rw [hm]
    exact ih h1

lemma searchS7_none_of_allDigit {s : LC} (h : AllDigit s) : searchS7 s = none := by
  induction s with
  | nil => rfl
  | cons c cs ih =>
    have h1 : AllDigit cs := fun x hx => h x (List.mem_cons_of_mem c hx)
    have hm : matchS7At (c :: cs) = none := by
      unfold matchS7At
      rw [takeDigits_of_allDigit h]
      simp
    unfold searchS7
    rw [hm]
    exact ih h1

lemma searchS7_none {s : LC} (h : NoDigit s) : searchS7 s = none := by
  have := searchS7_append (v := []) h
  simpa using this

lemma matchS8At_none {s : LC} (h : NoDigit s) : matchS8At s = none := by
  unfold matchS8At
  cases s with
  | nil => simp
  | cons c cs =>
    by_cases hc : c = ':'
    · subst hc
      have h1 : NoDigit cs := fun x hx => h x (List.mem_cons_of_mem _ hx)
      simp [takeDigits_dropWs_nil_of_noDigit h1]
    · simp [hc]

lemma searchS8_none {s : LC} (h : NoDigit s) : searchS8 s = none := by
  induction s with
  | nil => rfl
  | cons c cs ih =>
    have h1 : NoDigit cs := fun x hx => h x (List.mem_cons_of_mem c hx)
    unfold searchS8
    rw [matchS8At_none h]
    exact ih h1

lemma mem_of_parenPart_snd {c : Char} {u1 u2 : LC}
    (h : c ∈ (parenPart u1 u2).2) : c ∈ u2 := by
  unfold parenPart at h
  by_cases hp : u2.head? = some '('
  · simp only [hp, if_true] at h
    by_cases hv : (takeUppers u2.tail).1.isEmpty
    · simp only [hv, if_true] at h
      exact h
    · simp only [hv, if_false, Bool.false_eq_true] at h
      by_cases hcl : (takeUppers u2.tail).2.head? = some ')'
      · simp only [hcl, if_true] at h
        exact List.mem_of_mem_tail
          (mem_of_takeUppers_snd (List.mem_of_mem_tail h))
      · simp only [hcl, if_false, Bool.false_eq_true] at h
        exact h
  · simp only [hp, if_false, Bool.false_eq_true] at h
    exact h

lemma matchM1_none {s : LC} (h : NoDigit s) : matchM1 s = none := by
  unfold matchM1
  by_cases hu : (takeUppers s).1.isEmpty
  · simp [hu]
  · have hz : (takeDigits (dropWs
        (dropWs (parenPart (takeUppers s).1 (takeUppers s).2).2).tail)).1 = [] := by
      apply takeDigits_dropWs_nil_of_noDigit
      intro c hc
      exact h c (mem_of_takeUppers_snd
        (mem_of_parenPart_snd (mem_of_dropWs (List.mem_of_mem_tail hc))))
    simp [hu, hz]

/-! Success lemmas: the matchers on well-formed shapes. -/

lemma allDigit_ne {d : LC} (h : AllDigit d) {x : Char} (hx : x.isDigit = false) :
    ∀ c ∈ d, c ≠ x := by
  intro c hc he
  subst he
  rw [h c hc] at hx
  cases hx

lemma searchS3_eq_of_matchAt {s : LC} {r : LC} (h0 : s ≠ [])
    (hm : matchS3At s = some r) : searchS3 s = some r := by
  cases s with
  | nil => cases h0 rfl
  | cons c cs =>
    unfold searchS3
    rw [hm]

lemma searchS5_eq_of_matchAt {s : LC} {r : LC} (h0 : s ≠ [])
    (hm : matchS5At s = some r) : searchS5 s = some r := by
  cases s with
  | nil => cases h0 rfl
  | cons c cs =>
    unfold searchS5
    rw [hm]

lemma searchS6_eq_of_matchAt {s : LC} {r : LC} (h0 : s ≠ [])
    (hm : matchS6At s = some r) : searchS6 s = some r := by
  cases s with
  | nil => cases h0 rfl
  | cons c cs =>
    unfold searchS6
    rw [hm]

lemma searchS7_eq_of_matchAt {s : LC} {r : LC × LC} (h0 : s ≠ [])
    (hm : matchS7At s = some r) : searchS7 s = some r := by
  cases s with
  | nil => cases h0 rfl
  | cons c cs =>
    unfold searchS7
    rw [hm]

lemma matchS3At_found {ds ys : LC} (h0 : ds ≠ []) (hd : AllDigit ds) :
    matchS3At ('-' :: (ds ++ '/' :: ys)) = some ds := by
  unfold matchS3At
  have hdw : dropWs (ds ++ '/' :: ys) = ds ++ '/' :: ys := by
    cases ds with
    | nil => cases h0 rfl
    | cons c t =>
      exact dropWs_of_head (not_space_of_digit (hd c (List.mem_cons_self c t)))
  have htd : takeDigits (ds ++ '/' :: ys) = (ds, '/' :: ys) :=
    takeDigits_of_append hd (by intro c t he; cases he; decide)
  simp only [List.head?_cons, List.tail_cons, Option.some.injEq, if_pos rfl, hdw, htd]
  rw [dropWs_of_head (by decide)]
  simp [h0]

lemma matchS5At_found {ds ys : LC} (h0 : ds ≠ []) (hd : AllDigit ds) :
    matchS5At ('/' :: (ds ++ '/' :: ys)) = some ds := by
  unfold matchS5At
  have htd : takeDigits (ds ++ '/' :: ys) = (ds, '/' :: ys) :=
    takeDigits_of_append hd (by intro c t he; cases he; decide)
  simp [htd, h0]

lemma matchS6At_found {ys : LC} (h0 : ys ≠ []) (hd : AllDigit ys) :
    matchS6At ('/' :: ys) = some ys := by
  unfold matchS6At
  have htd : takeDigits ys = (ys, []) := takeDigits_of_allDigit hd
  simp [htd, h0]

lemma matchS7At_found {dsA dsB : LC} (hA0 : dsA ≠ []) (hA : AllDigit dsA)
    (hB0 : dsB ≠ []) (hB : AllDigit dsB) :
    matchS7At (dsA ++ '-' :: dsB) = some (dsA, dsB) := by
  unfold matchS7At
  have htd : takeDigits (dsA ++ '-' :: dsB) = (dsA, '-' :: dsB) :=
    takeDigits_of_append hA (by intro c t he; cases he; decide)
  have htd2 : takeDigits dsB = (dsB, []) := takeDigits_of_allDigit hB
  simp [htd, htd2, hA0, hB0]

/-! Composite spine lemmas for the well-formed case-number and serial
shapes of the spec. -/

lemma searchS3_slash_shape {p ds ys : LC} (hp : NoDigit p) (hd : AllDigit ds)
    (hy : AllDigit ys) :
    searchS3 (p ++ '/' :: (ds ++ '/' :: ys)) = none := by
  rw [searchS3_append hp (by intro c t he; cases he; exact ⟨by decide, by decide⟩)]
  apply searchS3_none_of_noDash
  intro c hc
  rcases List.mem_cons.mp hc with h1 | h1
  · subst h1; decide
  · rcases List.mem_append.mp h1 with h2 | h2
    · exact allDigit_ne hd (by decide) c h2
    · rcases List.mem_cons.mp h2 with h3 | h3
      · subst h3; decide
      · exact allDigit_ne hy (by decide) c h3

lemma searchS3_dash_shape {p ds ys : LC} (hp : NoDigit p) (h0 : ds ≠ [])
    (hd : AllDigit ds) :
    searchS3 (p ++ '-' :: (ds ++ '/' :: ys)) = some ds := by
  rw [searchS3_append hp (by intro c t he; cases he; exact ⟨by decide, by decide⟩)]
  exact searchS3_eq_of_matchAt (by simp) (matchS3At_found h0 hd)

lemma searchS2_after_sep {p ds : LC} (sep : Char) (rest : LC) (hp : NoDigit p)
    (hsep : isWordChar sep = false) (h0 : ds ≠ []) (hd : AllDigit ds)
    (hr : HeadNotWord rest) :
    searchS2 (p ++ sep :: (ds ++ rest)) = some ds := by
  unfold searchS2
  rw [searchS2Aux_through hp (not_digit_of_not_word hsep) (ds ++ rest) none]
  exact searchS2Aux_found hsep h0 hd hr

lemma searchS5_slash_shape {p ds ys : LC} (hp : NoDigit p) (h0 : ds ≠ [])
    (hd : AllDigit ds) :
    searchS5 (p ++ '/' :: (ds ++ '/' :: ys)) = some ds := by
  rw [searchS5_append hp (by intro c t he; cases he; decide)]
  exact searchS5_eq_of_matchAt (by simp) (matchS5At_found h0 hd)

lemma searchS5_dash_shape {p ds ys : LC} (hp : NoDigit p) (hd : AllDigit ds)
    (hy : AllDigit ys) :
    searchS5 (p ++ '-' :: (ds ++ '/' :: ys)) = none := by
  rw [searchS5_append hp (by intro c t he; cases he; decide)]
  have h1 : searchS5 ('-' :: (ds ++ '/' :: ys)) = searchS5 (ds ++ '/' :: ys) := by
    conv_lhs => unfold searchS5
    rw [matchS5At_of_ne (by decide)]
  rw [h1, searchS5_append_noSlash (allDigit_ne hd (by decide))]
  have h2 : searchS5 ('/' :: ys) = searchS5 ys := by
    conv_lhs => unfold searchS5
    have hm : matchS5At ('/' :: ys) = none := by
      unfold matchS5At
      rw [List.head?_cons, List.tail_cons, takeDigits_of_allDigit hy]
      simp
    rw [hm]
  rw [h2]
  have h3 := searchS5_append_noSlash (v := []) (allDigit_ne hy (by decide))
  simpa using h3

lemma searchS6_dash_shape {p ds ys : LC} (hp : NoDigit p) (hd : AllDigit ds)
    (hy0 : ys ≠ []) (hy : AllDigit ys) :
    searchS6 (p ++ '-' :: (ds ++ '/' :: ys)) = some ys := by
  rw [searchS6_append hp (by intro c t he; cases he; decide)]
  have h1 : searchS6 ('-' :: (ds ++ '/' :: ys)) = searchS6 (ds ++ '/' :: ys) := by
    conv_lhs => unfold searchS6
    rw [matchS6At_of_ne (by decide)]
  rw [h1, searchS6_append_noSlash (allDigit_ne hd (by decide))]
  exact searchS6_eq_of_matchAt (by simp) (matchS6At_found hy0 hy)

lemma searchS7_single_shape {p ds : LC} (hp : NoDigit p) (hd : AllDigit ds) :
    searchS7 (p ++ ' ' :: ds) = none := by
  rw [searchS7_append hp]
  have h1 : searchS7 (' ' :: ds) = searchS7 ds := by
    conv_lhs => unfold searchS7
    rw [matchS7At_none (by intro c t he; cases he; decide)]
  rw [h1]
  exact searchS7_none_of_allDigit hd

lemma searchS7_range_shape {p dsA dsB : LC} (hp : NoDigit p) (hA0 : dsA ≠ [])
    (hA : AllDigit dsA) (hB0 : dsB ≠ []) (hB : AllDigit dsB) :
    searchS7 (p ++ ' ' :: (dsA ++ '-' :: dsB)) = some (dsA, dsB) := by
  rw [searchS7_append hp]
  have h1 : searchS7 (' ' :: (dsA ++ '-' :: dsB)) = searchS7 (dsA ++ '-' :: dsB) := by
    conv_lhs => unfold searchS7
    rw [matchS7At_none (by intro c t he; cases he; decide)]
  rw [h1]
  exact searchS7_eq_of_matchAt (by simp) (matchS7At_found hA0 hA hB0 hB)

lemma matchS2At_digits {s ds : LC} (h : matchS2At s = some ds) :
    ds ≠ [] ∧ AllDigit ds := by
  unfold matchS2At at h
  by_cases h1 : (takeDigits s).1.isEmpty
  · simp [h1] at h
  · by_cases h2 : (takeDigits s).2.head?.any isWordChar
    · simp [h1, h2] at h
    · simp only [h1, h2, if_false, Bool.false_eq_true, Option.some.injEq] at h
      subst h
      exact ⟨by simpa [List.isEmpty_iff] using h1, takeDigits_fst_all s⟩

lemma searchS2Aux_digits : ∀ {s : LC} {prev : Option Char} {ds : LC},
    searchS2Aux prev s = some ds → ds ≠ [] ∧ AllDigit ds := by
  intro s
  induction s with
  | nil => intro prev ds h; cases h
  | cons c cs ih =>
    intro prev ds h
    unfold searchS2Aux at h
    cases hm : (if boundaryBefore prev = true then matchS2At (c :: cs) else none) with
    | some r =>
      rw [hm] at h
      cases h
      by_cases hb : boundaryBefore prev
      · rw [if_pos hb] at hm
        exact matchS2At_digits hm
      · rw [if_neg hb] at hm
        cases hm
    | none =>
      rw [hm] at h
      exact ih h

lemma matchS7At_digits {s : LC} {r : LC × LC} (h : matchS7At s = some r) :
    (r.1 ≠ [] ∧ AllDigit r.1) ∧ (r.2 ≠ [] ∧ AllDigit r.2) := by
  unfold matchS7At at h
  by_cases h1 : (takeDigits s).1.isEmpty
  · simp [h1] at h
  · by_cases h2 : (takeDigits s).2.head? = some '-'
    · by_cases h3 : (takeDigits (takeDigits s).2.tail).1.isEmpty
      · simp [h1, h2, h3] at h
      · rw [if_neg (by simpa using h1), if_pos h2, if_neg (by simpa using h3)] at h
        cases h
        refine ⟨⟨by simpa [List.isEmpty_iff] using h1, takeDigits_fst_all s⟩,
          ⟨by simpa [List.isEmpty_iff] using h3, takeDigits_fst_all _⟩⟩
    · simp [h1, h2] at h

lemma searchS7_digits : ∀ {s : LC} {r : LC × LC}, searchS7 s = some r →
    (r.1 ≠ [] ∧ AllDigit r.1) ∧ (r.2 ≠ [] ∧ AllDigit r.2) := by
  intro s
  induction s with
  | nil => intro r h; cases h
  | cons c cs ih =>
    intro r h
    unfold searchS7 at h
    cases hm : matchS7At (c :: cs) with
    | some q =>
      rw [hm] at h
      cases h
      exact matchS7At_digits hm
    | none =>
      rw [hm] at h
      exact ih h

lemma pyStrip_digits_space {d : LC} (h0 : d ≠ []) (h : AllDigit d) :
    pyStrip (d ++ [' ']) = d := by
  unfold pyStrip
  cases d with
  | nil => cases h0 rfl
  | cons c t =>
    have hns : ∀ x ∈ (c :: t : LC), pyIsSpace x = false :=
      fun x hx => not_space_of_digit (h x hx)
    rw [List.cons_append, pyStripLeft_of_head (hns c (List.mem_cons_self c t)),
      ← List.cons_append, List.reverse_append]
    simp only [List.reverse_cons, List.reverse_nil, List.nil_append, List.singleton_append]
    rw [pyStripLeft_cons_space (by decide)]
    rw [pyStripLeft_of_nospace (by
      intro x hx
      rcases List.mem_append.mp hx with h1 | h1
      · exact hns x (List.mem_cons_of_mem c (List.mem_reverse.mp h1))
      · rcases List.mem_singleton.mp h1 with rfl
        exact hns x (List.mem_cons_self x t))]
    simp

lemma takeWhile_all_append {p : Char → Bool} {u v : LC} (h : ∀ c ∈ u, p c = true) :
    (u ++ v).takeWhile p = u ++ v.takeWhile p := by
  induction u with
  | nil => rfl
  | cons c u' ih =>
    have hc : p c = true := h c (List.mem_cons_self c u')
    simp only [List.cons_append, List.takeWhile_cons, hc, if_true]
    rw [ih (fun x hx => h x (List.mem_cons_of_mem c hx))]

lemma save_to_excel_spec {data : List CourtData} (h : data ≠ [])
    (f : Option (List (List LC))) :
    save_to_excel data f = (true, some (rowsOf f ++ data.map recordToRow)) := by
  have hne : data.isEmpty = false := by
    cases data with
    | nil => cases h rfl
    | cons r rs => rfl
  cases f with
  | none => simp [save_to_excel, hne, rowsOf]
  | some rows => simp [save_to_excel, hne, rowsOf]



/-! ### Claim theorems -/

/-- C7: for every non-empty record set and every day-file state, running
the tabular sink's append twice appends the record set twice with no
deduplication; each successful append grows the row count by the size of
the record set, existing rows are preserved as a prefix, and every row is
the record projected onto the fixed column order. -/
theorem claim_C7_append_twice :
    ∀ (r : List CourtData) (f : Option (List (List LC))), r ≠ [] →
    (save_to_excel r f).1 = true ∧
    (save_to_excel r (save_to_excel r f).2).1 = true ∧
    rowsOf (save_to_excel r f).2 = rowsOf f ++ r.map recordToRow ∧
    rowsOf (save_to_excel r (save_to_excel r f).2).2 =
      (rowsOf f ++ r.map recordToRow) ++ r.map recordToRow ∧
    (rowsOf (save_to_excel r f).2).length = (rowsOf f).length + r.length ∧
    (rowsOf (save_to_excel r (save_to_excel r f).2).2).length =
      (rowsOf (save_to_excel r f).2).length + r.length ∧
    (∀ x : CourtData, (recordToRow x).length = excelColumns.length) := by
  intro r f h
  rw [save_to_excel_spec h f]
  rw [save_to_excel_spec h (some (rowsOf f ++ r.map recordToRow))]
  refine ⟨rfl, rfl, rfl, rfl, by simp [rowsOf, Nat.add_assoc],
    by simp [rowsOf, Nat.add_assoc], fun x => rfl⟩

/-- Witness for C7 at a concrete record and an existing one-row file. -/
theorem claim_C7_witness :
    (([sampleRecord] : List CourtData) ≠ []) ∧
    rowsOf (save_to_excel [sampleRecord]
      (save_to_excel [sampleRecord] (some [recordToRow sampleRecord])).2).2 =
      [recordToRow sampleRecord, recordToRow sampleRecord, recordToRow sampleRecord] :=
  ⟨by decide, by
    have h := claim_C7_append_twice [sampleRecord] (some [recordToRow sampleRecord])
      (by decide)
    rw [h.2.2.2.1]
    rfl⟩

/-- C5: on a cycle where the recomputed today-folder differs from the
cached one, the driver switches to the new folder, the cycle counter is
reset to 1 and the backup counter to 0, the cycle's records are persisted
into a fresh day-file containing only those records, and no backup is
produced on that cycle. -/
theorem claim_C5_day_rollover :
    ∀ (s : LoopState) (inp : CycleInput), inp.todayFolder ≠ s.dateFolder →
    (stepCycle s inp).dateFolder = inp.todayFolder ∧
    (stepCycle s inp).cycleCount = 1 ∧
    (stepCycle s inp).lastBackupCycle = 0 ∧
    (stepCycle s inp).backups = s.backups ∧
    (inp.records ≠ [] → inp.saveErr = false →
      (stepCycle s inp).dayFile = some (inp.records.map recordToRow)) ∧
    (inp.records = [] → (stepCycle s inp).dayFile = none) := by
  intro s inp h
  have hr : (inp.todayFolder != s.dateFolder) = true := by
    simp [bne_iff_ne, h]
  by_cases hrec : inp.records = []
  · have hstep : stepCycle s inp =
        { dateFolder := inp.todayFolder, dayFile := none, cycleCount := 1,
          lastBackupCycle := 0, firstCycle := true, backups := s.backups } := by
      unfold stepCycle
      rw [hr]
      simp [hrec]
    rw [hstep]
    exact ⟨rfl, rfl, rfl, rfl, fun hne _ => absurd hrec hne, fun _ => rfl⟩
  · have hne : inp.records.isEmpty = false := by
      simpa [List.isEmpty_iff] using hrec
    by_cases herr : inp.saveErr = true
    · have hstep : stepCycle s inp =
          { dateFolder := inp.todayFolder, dayFile := none, cycleCount := 1,
            lastBackupCycle := 0, firstCycle := true, backups := s.backups } := by
        unfold stepCycle
        rw [hr]
        simp [hne, herr]
      rw [hstep]
      exact ⟨rfl, rfl, rfl, rfl, (fun _ h2 => by simp [herr] at h2),
        fun h2 => absurd h2 hrec⟩
    · have herr' : inp.saveErr = false := by simpa using herr
      have hstep : stepCycle s inp =
          { dateFolder := inp.todayFolder,
            dayFile := some (inp.records.map recordToRow), cycleCount := 1,
            lastBackupCycle := 0, firstCycle := false, backups := s.backups } := by
        unfold stepCycle
        rw [hr]
        simp [hne, herr', save_to_excel_spec hrec none, rowsOf, BACKUP_CYCLE_INTERVAL]
      rw [hstep]
      exact ⟨rfl, rfl, rfl, rfl, fun _ _ => rfl, fun h2 => absurd h2 hrec⟩

/-- Witness for C5: a rollover cycle with one record resets the counters
and starts a fresh day-file. -/
theorem claim_C5_witness :
    ((("e").toList : LC) ≠ ("d").toList) ∧
    (stepCycle
      { dateFolder := ("d").toList, dayFile := some [[("x").toList]],
        cycleCount := 7, lastBackupCycle := 3, firstCycle := false, backups := [] }
      { todayFolder := ("e").toList, records := [sampleRecord], saveErr := false }
      ).cycleCount = 1 ∧
    (stepCycle
      { dateFolder := ("d").toList, dayFile := some [[("x").toList]],
        cycleCount := 7, lastBackupCycle := 3, firstCycle := false, backups := [] }
      { todayFolder := ("e").toList, records := [sampleRecord], saveErr := false }
      ).dayFile = some [recordToRow sampleRecord] :=
  have h := claim_C5_day_rollover
    { dateFolder := ("d").toList, dayFile := some [[("x").toList]],
      cycleCount := 7, lastBackupCycle := 3, firstCycle := false, backups := [] }
    { todayFolder := ("e").toList, records := [sampleRecord], saveErr := false }
    (by decide)
  ⟨by decide, h.2.1, h.2.2.2.2.1 (by decide) rfl⟩

lemma courtScan_cons {t c : LC} {row : DomRow} {rows : List DomRow} :
    courtScan t c (row :: rows) = c :: courtScan t (nextCourt t c row) rows := rfl

lemma scrape_rows_cons {t c : LC} {row : DomRow} {rows : List DomRow} :
    scrape_display_board_rows t c (row :: rows) =
      (match processRow t c row with
        | .ok r =>
          match r.2 with
          | some rec => rec :: scrape_display_board_rows t r.1 rows
          | none => scrape_display_board_rows t r.1 rows
        | .error _ => scrape_display_board_rows t c rows) := rfl

/-- C8: the row-extraction loop returns exactly the records of the rows
whose processing does not raise, with the carried court value threaded
past skipped rows: the loop equals the specification that zips each row
with the court value carried to it and keeps the successfully processed
rows. -/
theorem claim_C8_bad_rows_skipped :
    ∀ (t c : LC) (rows : List DomRow),
    scrape_display_board_rows t c rows = specRecords t c rows := by
  intro t c rows
  induction rows generalizing c with
  | nil => rfl
  | cons row rows ih =>
    have hnext : ∀ c0 : LC, specRecords t c0 (row :: rows) =
        (match processRow t c0 row with
          | .ok r => r.2.toList
          | .error _ => []) ++ specRecords t (nextCourt t c0 row) rows := by
      intro c0
      unfold specRecords
      rw [courtScan_cons, List.zip_cons_cons, List.filterMap_cons]
      cases hp : processRow t c0 row with
      | ok r =>
        cases hr : r.2 with
        | some rec => simp [hp, hr]
        | none => simp [hp, hr]
      | error e => simp [hp]
    have hleft : scrape_display_board_rows t c (row :: rows) =
        (match processRow t c row with
          | .ok r => r.2.toList
          | .error _ => []) ++ scrape_display_board_rows t (nextCourt t c row) rows := by
      rw [scrape_rows_cons]
      cases hp : processRow t c row with
      | ok r =>
        have hnc : nextCourt t c row = r.1 := by simp [nextCourt, hp]
        rw [hnc]
        cases hr : r.2 with
        | some rec => simp [hr]
        | none => simp [hr]
      | error e =>
        have hnc : nextCourt t c row = c := by simp [nextCourt, hp]
        rw [hnc]
        simp
    rw [hleft, hnext c, ih (nextCourt t c row)]

lemma strip_nonempty_of_digit_mem {cs : LC} {a : Char} (ha : a.isDigit = true)
    (hm : a ∈ cs) : (pyStrip cs).isEmpty = false := by
  have := pyStrip_ne_nil (not_space_of_digit ha) hm
  simpa [List.isEmpty_iff] using this

lemma extract_serial_noDigit {s : LC} (hs : NoDigit s) :
    extract_serial_number_range (some s) = [] := by
  unfold extract_serial_number_range extract_serial_number_rangeE
  by_cases h1 : s.isEmpty <;> by_cases h2 : (pyStrip s).isEmpty <;>
    simp [h1, h2, searchS7_none hs, searchS2, searchS2Aux_none hs]

/-- C3: for serial strings of shape prefix-space-A-dash-B over a digit-free
prefix with A ≤ B, extract_serial_number_range returns the inclusive
integer list from A to B; for prefix-space-N it returns the one-element
list with N; for None and for digit-free (hence unparseable) strings it
returns the empty list. -/
theorem claim_C3_serial_range :
    ∀ (p dsA dsB : LC), NoDigit p → dsA ≠ [] → AllDigit dsA → dsB ≠ [] →
    AllDigit dsB → digitsVal dsA ≤ digitsVal dsB →
    extract_serial_number_range (some (p ++ ' ' :: (dsA ++ '-' :: dsB))) =
      (List.range (digitsVal dsB + 1 - digitsVal dsA)).map
        (fun i => ((digitsVal dsA + i : Nat) : Int)) ∧
    extract_serial_number_range (some (p ++ ' ' :: dsA)) =
      [((digitsVal dsA : Nat) : Int)] ∧
    (∀ s : LC, NoDigit s → extract_serial_number_range (some s) = []) ∧
    extract_serial_number_range none = [] := by
  intro p dsA dsB hp hA0 hA hB0 hB hle
  obtain ⟨a, tA, rfl⟩ : ∃ a tA, dsA = a :: tA := by
    cases dsA with
    | nil => cases hA0 rfl
    | cons a tA => exact ⟨a, tA, rfl⟩
  have ha : a.isDigit = true := hA a (List.mem_cons_self a tA)
  refine ⟨?_, ?_, ?_, rfl⟩
  · have hmem : a ∈ p ++ ' ' :: ((a :: tA) ++ '-' :: dsB) :=
      List.mem_append_right p (List.mem_cons_of_mem ' '
        (List.mem_append_left _ (List.mem_cons_self a tA)))
    simp only [extract_serial_number_range, extract_serial_number_rangeE]
    rw [if_neg (by simp), if_neg (by
      simp only [List.isEmpty_iff]
      exact pyStrip_ne_nil (not_space_of_digit ha) hmem)]
    rw [searchS7_range_shape hp hA0 hA hB0 hB]
    simp only [pyInt_of_digits hA0 hA, pyInt_of_digits hB0 hB]
    have hn : ((((digitsVal dsB : Nat) : Int) + 1) -
        ((digitsVal (a :: tA) : Nat) : Int)).toNat =
        digitsVal dsB + 1 - digitsVal (a :: tA) := by omega
    unfold pyRange
    rw [hn]
    apply List.map_congr_left
    intro i _
    push_cast
    ring
  · have hmem : a ∈ p ++ ' ' :: (a :: tA) :=
      List.mem_append_right p (List.mem_cons_of_mem ' ' (List.mem_cons_self a tA))
    simp only [extract_serial_number_range, extract_serial_number_rangeE]
    rw [if_neg (by simp), if_neg (by
      simp only [List.isEmpty_iff]
      exact pyStrip_ne_nil (not_space_of_digit ha) hmem)]
    rw [searchS7_single_shape hp hA]
    have hs2 : searchS2 (p ++ ' ' :: (a :: tA)) = some (a :: tA) := by
      have := searchS2_after_sep ' ' [] hp (by decide) hA0 hA
        (by intro c t he; cases he)
      simpa using this
    rw [hs2]
    simp [pyInt_of_digits hA0 hA]
  · intro s hs
    exact extract_serial_noDigit hs

/-- Witness for C3 at the docstring examples of the source. -/
theorem claim_C3_witness :
    extract_serial_number_range (some (("AD 27-31").toList)) =
      [27, 28, 29, 30, 31] ∧
    extract_serial_number_range (some (("AD 7").toList)) = [7] ∧
    extract_serial_number_range (some (("NSL").toList)) = [] ∧
    extract_serial_number_range none = [] := by
  have h1 := claim_C3_serial_range (("AD").toList) (("27").toList) (("31").toList)
    (by decide) (by decide) (by decide) (by decide) (by decide) (by decide)
  have h2 := claim_C3_serial_range (("AD").toList) (("7").toList) (("9").toList)
    (by decide) (by decide) (by decide) (by decide) (by decide) (by decide)
  exact ⟨h1.1, h2.2.1, h1.2.2.1 (("NSL").toList) (by decide), h1.2.2.2⟩

/-- C9: on a serial string carrying an inverted range token A-B with
A greater than B, the range branch matches and the expansion is the empty
list: the function returns [] without raising and without falling back to
the single-number branch. -/
theorem claim_C9_inverted_range :
    ∀ (p dsA dsB : LC), NoDigit p → dsA ≠ [] → AllDigit dsA → dsB ≠ [] →
    AllDigit dsB → digitsVal dsB < digitsVal dsA →
    extract_serial_number_rangeE (some (p ++ ' ' :: (dsA ++ '-' :: dsB))) =
      .ok ([] : List Int) ∧
    extract_serial_number_range (some (p ++ ' ' :: (dsA ++ '-' :: dsB))) = [] := by
  intro p dsA dsB hp hA0 hA hB0 hB hlt
  obtain ⟨a, tA, rfl⟩ : ∃ a tA, dsA = a :: tA := by
    cases dsA with
    | nil => cases hA0 rfl
    | cons a tA => exact ⟨a, tA, rfl⟩
  have ha : a.isDigit = true := hA a (List.mem_cons_self a tA)
  have hmem : a ∈ p ++ ' ' :: ((a :: tA) ++ '-' :: dsB) :=
    List.mem_append_right p (List.mem_cons_of_mem ' '
      (List.mem_append_left _ (List.mem_cons_self a tA)))
  have hbody : extract_serial_number_rangeE (some (p ++ ' ' :: ((a :: tA) ++ '-' :: dsB))) =
      .ok ([] : List Int) := by
    simp only [extract_serial_number_rangeE]
    rw [if_neg (by simp), if_neg (by
      simp only [List.isEmpty_iff]
      exact pyStrip_ne_nil (not_space_of_digit ha) hmem)]
    rw [searchS7_range_shape hp hA0 hA hB0 hB]
    simp only [pyInt_of_digits hA0 hA, pyInt_of_digits hB0 hB]
    have hz : ((((digitsVal dsB : Nat) : Int) + 1) -
        ((digitsVal (a :: tA) : Nat) : Int)).toNat = 0 := by omega
    unfold pyRange
    rw [hz]
    rfl
  refine ⟨hbody, ?_⟩
  simp only [extract_serial_number_range]
  rw [hbody]

/-- Witness for C9 at the inverted form of the docstring range example. -/
theorem claim_C9_witness :
    extract_serial_number_rangeE (some (("AD 31-27").toList)) = .ok ([] : List Int) ∧
    extract_serial_number_range (some (("AD 31-27").toList)) = [] := by
  have h := claim_C9_inverted_range (("AD").toList) (("31").toList) (("27").toList)
    (by decide) (by decide) (by decide) (by decide) (by decide) (by decide)
  exact ⟨h.1, h.2⟩

/-- C2 (amended): over a digit-free prefix, a nonempty digit run and a
nonempty all-digit year, both extractors return the digits for the
slash-separated shape; for the dash-separated shape the delhi extractor
returns the digits while the PortBlair extractor, whose fallback requires
a number preceded by a slash, returns the year; on digit-free strings
both return the empty string. -/
theorem claim_C2_case_number_extractors :
    ∀ (p ds ys : LC), NoDigit p → ds ≠ [] → AllDigit ds → ys ≠ [] → AllDigit ys →
    extract_case_number_numeric_delhi (some (p ++ '/' :: (ds ++ '/' :: ys))) = ds ∧
    extract_case_number_numeric_delhi (some (p ++ '-' :: (ds ++ '/' :: ys))) = ds ∧
    extract_case_number_numeric_pb (some (p ++ '/' :: (ds ++ '/' :: ys))) = ds ∧
    extract_case_number_numeric_pb (some (p ++ '-' :: (ds ++ '/' :: ys))) = ys ∧
    (∀ s : LC, NoDigit s → extract_case_number_numeric_delhi (some s) = [] ∧
      extract_case_number_numeric_pb (some s) = []) := by
  intro p ds ys hp h0 hd hy0 hy
  obtain ⟨d, tD, rfl⟩ : ∃ d tD, ds = d :: tD := by
    cases ds with
    | nil => cases h0 rfl
    | cons d tD => exact ⟨d, tD, rfl⟩
  have hdd : d.isDigit = true := hd d (List.mem_cons_self d tD)
  have hmemS : d ∈ p ++ '/' :: ((d :: tD) ++ '/' :: ys) :=
    List.mem_append_right p (List.mem_cons_of_mem '/'
      (List.mem_append_left _ (List.mem_cons_self d tD)))
  have hmemD : d ∈ p ++ '-' :: ((d :: tD) ++ '/' :: ys) :=
    List.mem_append_right p (List.mem_cons_of_mem '-'
      (List.mem_append_left _ (List.mem_cons_self d tD)))
  refine ⟨?_, ?_, ?_, ?_, ?_⟩
  · simp only [extract_case_number_numeric_delhi, extract_case_number_numeric_delhiE]
    rw [if_neg (by simp), if_neg (by
      simp only [List.isEmpty_iff]
      exact pyStrip_ne_nil (not_space_of_digit hdd) hmemS)]
    rw [searchS3_slash_shape hp hd hy]
    rw [searchS2_after_sep '/' ('/' :: ys) hp (by decide) h0 hd
      (by intro c t he; cases he; decide)]
    simp [pyStrip_of_allDigit hd]
  · simp only [extract_case_number_numeric_delhi, extract_case_number_numeric_delhiE]
    rw [if_neg (by simp), if_neg (by
      simp only [List.isEmpty_iff]
      exact pyStrip_ne_nil (not_space_of_digit hdd) hmemD)]
    rw [searchS3_dash_shape hp h0 hd]
    simp [pyStrip_of_allDigit hd]
  · simp only [extract_case_number_numeric_pb, extract_case_number_numeric_pbE]
    rw [if_neg (by simp), if_neg (by
      simp only [List.isEmpty_iff]
      exact pyStrip_ne_nil (not_space_of_digit hdd) hmemS)]
    rw [searchS5_slash_shape hp h0 hd]
    simp [pyStrip_of_allDigit hd]
  · simp only [extract_case_number_numeric_pb, extract_case_number_numeric_pbE]
    rw [if_neg (by simp), if_neg (by
      simp only [List.isEmpty_iff]
      exact pyStrip_ne_nil (not_space_of_digit hdd) hmemD)]
    rw [searchS5_dash_shape hp hd hy]
    rw [searchS6_dash_shape hp hd hy0 hy]
    simp [pyStrip_of_allDigit hy]
  · intro s hs
    constructor
    · simp only [extract_case_number_numeric_delhi, extract_case_number_numeric_delhiE]
      by_cases h1 : s.isEmpty <;> by_cases h2 : (pyStrip s).isEmpty <;>
        simp [h1, h2, searchS3_none hs, searchS2, searchS2Aux_none hs]
    · simp only [extract_case_number_numeric_pb, extract_case_number_numeric_pbE]
      by_cases h1 : s.isEmpty <;> by_cases h2 : (pyStrip s).isEmpty <;>
        simp [h1, h2, searchS5_none hs, searchS6_none hs]

/-- C2 counterexample: on the dash-separated shape the PortBlair extractor
does not return the case digits and does not fall back to the first number
anywhere; its fallback needs a slash before the number, so it returns the
year instead. -/
theorem claim_C2_counterexample :
    extract_case_number_numeric_pb (some (("LPA-500/2025").toList)) =
      ("2025").toList ∧
    (("2025").toList : LC) ≠ ("500").toList := ⟨by decide, by decide⟩

/-- Witness for C2 at the docstring examples of the two sources. -/
theorem claim_C2_witness :
    extract_case_number_numeric_delhi (some (("MAT/67/2026").toList)) =
      ("67").toList ∧
    extract_case_number_numeric_delhi (some (("LPA-500/2025").toList)) =
      ("500").toList ∧
    extract_case_number_numeric_pb (some (("MAT/67/2026").toList)) =
      ("67").toList ∧
    extract_case_number_numeric_pb (some (("LPA-500/2025").toList)) =
      ("2025").toList ∧
    extract_case_number_numeric_delhi (some (("N/A").toList)) = [] := by
  have h1 := claim_C2_case_number_extractors (("MAT").toList) (("67").toList)
    (("2026").toList) (by decide) (by decide) (by decide) (by decide) (by decide)
  have h2 := claim_C2_case_number_extractors (("LPA").toList) (("500").toList)
    (("2025").toList) (by decide) (by decide) (by decide) (by decide) (by decide)
  exact ⟨h1.1, h2.2.1, h1.2.2.1, h2.2.2.2.1,
    (h1.2.2.2.2 (("N/A").toList) (by decide)).1⟩

/-- C1 (amended): every field normalizer is total and never raises: its
exception-modelling body always succeeds, and on None and on digit-free
(hence empty, whitespace-only or malformed) input each returns its
empty default -- except extract_slno_and_case, which returns the pair of
the empty string and the unchanged input, passing the input through as
the case component. -/
theorem claim_C1_normalizers_total :
    ∀ (s : Option LC) (t : LC), NoDigit t →
    ((parse_case_detailsE s).isOk = true ∧
     (extract_case_number_numeric_delhiE s).isOk = true ∧
     (extract_case_number_numeric_pbE s).isOk = true ∧
     (extract_serial_number_rangeE s).isOk = true ∧
     (extract_item_number_numericE s).isOk = true ∧
     (extract_slno_and_caseE s).isOk = true) ∧
    (parse_case_details none = ([], [], []) ∧
     extract_case_number_numeric_delhi none = [] ∧
     extract_case_number_numeric_pb none = [] ∧
     extract_serial_number_range none = [] ∧
     extract_item_number_numeric none = [] ∧
     extract_slno_and_case none = ([], none)) ∧
    (parse_case_details (some t) = ([], [], []) ∧
     extract_case_number_numeric_delhi (some t) = [] ∧
     extract_case_number_numeric_pb (some t) = [] ∧
     extract_serial_number_range (some t) = [] ∧
     extract_item_number_numeric (some t) = [] ∧
     extract_slno_and_case (some t) = ([], some t)) := by
  intro s t ht
  have hnds : ∀ u : LC, NoDigit u → NoDigit (pyStrip u) :=
    fun u hu c hc => hu c (mem_of_pyStrip hc)
  refine ⟨⟨?_, ?_, ?_, ?_, ?_, ?_⟩, ⟨rfl, rfl, rfl, rfl, rfl, rfl⟩,
    ⟨?_, ?_, ?_, ?_, ?_, ?_⟩⟩
  · cases s with
    | none => rfl
    | some cs =>
      simp only [parse_case_detailsE]
      split
      · rfl
      · split
        · rfl
        · split
          · rfl
          · split <;> rfl
  · cases s with
    | none => rfl
    | some cs =>
      simp only [extract_case_number_numeric_delhiE]
      split
      · rfl
      · split
        · rfl
        · split
          · rfl
          · split <;> rfl
  · cases s with
    | none => rfl
    | some cs =>
      simp only [extract_case_number_numeric_pbE]
      split
      · rfl
      · split
        · rfl
        · split
          · rfl
          · split <;> rfl
  · cases s with
    | none => rfl
    | some cs =>
      simp only [extract_serial_number_rangeE]
      split
      · rfl
      · split
        · rfl
        · split
          · rename_i r heq
            obtain ⟨⟨hA0, hA⟩, hB0, hB⟩ := searchS7_digits heq
            rw [pyInt_of_digits hA0 hA, pyInt_of_digits hB0 hB]
            rfl
          · split
            · rename_i ds heq2
              obtain ⟨hd0, hdall⟩ := searchS2Aux_digits heq2
              rw [pyInt_of_digits hd0 hdall]
              rfl
            · rfl
  · cases s with
    | none => rfl
    | some cs =>
      simp only [extract_item_number_numericE]
      split
      · rfl
      · split
        · rfl
        · split
          · rfl
          · split <;> rfl
  · cases s with
    | none => rfl
    | some cs =>
      simp only [extract_slno_and_caseE]
      split
      · rfl
      · split
        · rfl
        · split <;> rfl
  · simp only [parse_case_details, parse_case_detailsE]
    by_cases h1 : t.isEmpty
    · simp [h1]
    · by_cases h2 : (pyStrip t).isEmpty
      · simp [h1, h2]
      · simp [h1, h2, matchM1_none (hnds t ht), searchS1_none (hnds t ht)]
  · simp only [extract_case_number_numeric_delhi, extract_case_number_numeric_delhiE]
    by_cases h1 : t.isEmpty <;> by_cases h2 : (pyStrip t).isEmpty <;>
      simp [h1, h2, searchS3_none ht, searchS2, searchS2Aux_none ht]
  · simp only [extract_case_number_numeric_pb, extract_case_number_numeric_pbE]
    by_cases h1 : t.isEmpty <;> by_cases h2 : (pyStrip t).isEmpty <;>
      simp [h1, h2, searchS5_none ht, searchS6_none ht]
  · exact extract_serial_noDigit ht
  · simp only [extract_item_number_numeric, extract_item_number_numericE]
    by_cases h1 : t.isEmpty <;> by_cases h2 : (pyStrip t).isEmpty <;>
      by_cases h3 : t = ['*'] <;> simp [h1, h2, h3, searchS4_none ht]
  · simp only [extract_slno_and_case, extract_slno_and_caseE]
    by_cases h1 : t.isEmpty <;>
      by_cases h2 : pyLower t = ("not in session").toList <;>
      simp [h1, h2, searchS8_none ht]

/-- C1 counterexample: on malformed input the orissa normalizer does not
return an empty default tuple: the second component is the unchanged
nonempty input string. -/
theorem claim_C1_counterexample :
    extract_slno_and_case (some (("garbage").toList)) =
      ([], some (("garbage").toList)) ∧
    (("garbage").toList : LC) ≠ [] := ⟨by decide, by decide⟩

/-- Witness for C1 at a concrete input and a concrete digit-free string. -/
theorem claim_C1_witness :
    (extract_serial_number_rangeE (some (("AD 27-31").toList))).isOk = true ∧
    parse_case_details none = ([], [], []) ∧
    parse_case_details (some (("N/A").toList)) = ([], [], []) ∧
    extract_case_number_numeric_delhi (some (("N/A").toList)) = [] ∧
    extract_case_number_numeric_pb (some (("N/A").toList)) = [] ∧
    extract_serial_number_range (some (("N/A").toList)) = [] ∧
    extract_item_number_numeric (some (("N/A").toList)) = [] ∧
    extract_slno_and_case (some (("N/A").toList)) = ([], some (("N/A").toList)) := by
  have h := claim_C1_normalizers_total (some (("AD 27-31").toList))
    (("N/A").toList) (by decide)
  exact ⟨h.1.2.2.2.1, h.2.1.1, h.2.2.1, h.2.2.2.1, h.2.2.2.2.1,
    h.2.2.2.2.2.1, h.2.2.2.2.2.2.1, h.2.2.2.2.2.2.2⟩

lemma mem_of_takeWhile {p : Char → Bool} {c : Char} :
    ∀ {l : LC}, c ∈ l.takeWhile p → c ∈ l := by
  intro l
  induction l with
  | nil => intro h; simp [List.takeWhile] at h
  | cons x t ih =>
    intro h
    rw [List.takeWhile_cons] at h
    by_cases hx : p x
    · rw [if_pos hx] at h
      rcases List.mem_cons.mp h with h1 | h1
      · exact h1 ▸ List.mem_cons_self x t
      · exact List.mem_cons_of_mem x (ih h1)
    · rw [if_neg hx] at h
      cases h

/-- C10: the payload's serialNumber is 0 whenever the Full Case field
holds no extractable number or its int parsing fails; for a range value
"A - B" it is the first number A; and listNumber defaults to 0 when the
List Type value is empty or fails to parse as an int. -/
theorem claim_C10_payload_defaults :
    ∀ (fc lt dsA dsB : LC),
    (NoDigit fc → serial_number_of fc = 0) ∧
    ((serial_number_ofE fc).isOk = false → serial_number_of fc = 0) ∧
    (dsA ≠ [] → AllDigit dsA → AllDigit dsB →
      serial_number_of (dsA ++ ' ' :: '-' :: ' ' :: dsB) =
        ((digitsVal dsA : Nat) : Int)) ∧
    (lt = [] → list_number_of lt = 0) ∧
    ((pyInt lt).isOk = false → list_number_of lt = 0) := by
  intro fc lt dsA dsB
  refine ⟨?_, ?_, ?_, ?_, ?_⟩
  · intro h
    unfold serial_number_of serial_number_ofE
    by_cases hc : fc.contains '-'
    · simp only [hc, if_true]
      have hnd : NoDigit (pyStrip (fc.takeWhile (fun c => decide (c ≠ '-')))) :=
        fun c hcm => h c (mem_of_takeWhile (mem_of_pyStrip hcm))
      have herr := pyInt_err_of_noDigit hnd
      cases hpi : pyInt (pyStrip (fc.takeWhile (fun c => decide (c ≠ '-')))) with
      | ok v => rw [hpi] at herr; simp [Except.isOk, Except.toBool] at herr
      | error e => simp [hpi]
    · simp only [hc, if_false, Bool.false_eq_true]
      have hs : searchS2 fc = none := searchS2Aux_none h none
      simp only [searchS2] at hs
      simp [searchS2, hs]
  · intro h
    unfold serial_number_of
    cases he : serial_number_ofE fc with
    | ok v => rw [he] at h; simp [Except.isOk, Except.toBool] at h
    | error e => simp
  · intro hA0 hA hB
    unfold serial_number_of serial_number_ofE
    have hmem : '-' ∈ dsA ++ ' ' :: '-' :: ' ' :: dsB :=
      List.mem_append_right _ (List.mem_cons_of_mem _ (List.mem_cons_self _ _))
    have hcon : (dsA ++ ' ' :: '-' :: ' ' :: dsB).contains '-' = true :=
      List.elem_eq_true_of_mem hmem
    simp only [hcon, if_true]
    rw [takeWhile_all_append
      (fun c hc => decide_eq_true (allDigit_ne hA (by decide) c hc))]
    have htw : (' ' :: '-' :: ' ' :: dsB).takeWhile
        (fun c => decide (c ≠ '-')) = [' '] := by
      simp [List.takeWhile_cons]
    rw [htw, pyStrip_digits_space hA0 hA, pyInt_of_digits hA0 hA]
  · intro h
    subst h
    rfl
  · intro h
    unfold list_number_of list_number_ofE
    by_cases hlt : lt.isEmpty
    · simp [hlt]
    · simp only [hlt, if_false, Bool.false_eq_true]
      cases he : pyInt lt with
      | ok v => rw [he] at h; simp [Except.isOk, Except.toBool] at h
      | error e => simp

/-- Witness for C10 at the range example of the source comment and a
value with no number. -/
theorem claim_C10_witness :
    serial_number_of (("8 - 9").toList) = 8 ∧
    serial_number_of (("N/A").toList) = 0 ∧
    list_number_of [] = 0 ∧
    list_number_of (("x").toList) = 0 := by
  have h1 := claim_C10_payload_defaults (("N/A").toList) [] (("8").toList)
    (("9").toList)
  have h2 := claim_C10_payload_defaults (("N/A").toList) (("x").toList)
    (("8").toList) (("9").toList)
  exact ⟨h1.2.2.1 (by decide) (by decide) (by decide), h1.1 (by decide),
    h1.2.2.2.1 rfl, h2.2.2.2.2 (by decide)⟩

/-- C4 (amended): on a cycle without date rollover, a backup is produced
exactly when the persist succeeds and at least BACKUP_CYCLE_INTERVAL
cycles, counting every cycle whether or not it persisted, have passed
since the last backup; the backup then holds the full day-file contents
at that moment (previous rows plus the rows appended this cycle) and the
backup counter moves to the current cycle; on any other cycle the backups
are unchanged; and the backup step returns false when the day-file does
not exist or is empty. -/
theorem claim_C4_backup_cadence :
    ∀ (s : LoopState) (inp : CycleInput), inp.todayFolder = s.dateFolder →
    ((inp.records ≠ [] → inp.saveErr = false →
      BACKUP_CYCLE_INTERVAL ≤ s.cycleCount + 1 - s.lastBackupCycle →
      (stepCycle s inp).backups =
        s.backups ++ [rowsOf s.dayFile ++ inp.records.map recordToRow] ∧
      (stepCycle s inp).lastBackupCycle = s.cycleCount + 1 ∧
      (stepCycle s inp).dayFile =
        some (rowsOf s.dayFile ++ inp.records.map recordToRow)) ∧
     (inp.records ≠ [] → inp.saveErr = false →
      s.cycleCount + 1 - s.lastBackupCycle < BACKUP_CYCLE_INTERVAL →
      (stepCycle s inp).backups = s.backups ∧
      (stepCycle s inp).lastBackupCycle = s.lastBackupCycle) ∧
     ((inp.records = [] ∨ inp.saveErr = true) →
      (stepCycle s inp).backups = s.backups ∧
      (stepCycle s inp).lastBackupCycle = s.lastBackupCycle)) ∧
    create_backup_from_main_excel none = (false, none) ∧
    create_backup_from_main_excel (some []) = (false, none) := by
  intro s inp h
  have hroll : (inp.todayFolder != s.dateFolder) = false := by simp [h]
  refine ⟨⟨?_, ?_, ?_⟩, rfl, rfl⟩
  · intro hrec herr hcond
    have hne : inp.records.isEmpty = false := by
      simpa [List.isEmpty_iff] using hrec
    have hmap : inp.records.map recordToRow ≠ [] := by
      intro he
      apply hrec
      simpa using he
    have hrows : (rowsOf s.dayFile ++ inp.records.map recordToRow).isEmpty = false := by
      simp [List.isEmpty_iff, hmap]
    have hstep : stepCycle s inp =
        { dateFolder := s.dateFolder,
          dayFile := some (rowsOf s.dayFile ++ inp.records.map recordToRow),
          cycleCount := s.cycleCount + 1, lastBackupCycle := s.cycleCount + 1,
          firstCycle := false,
          backups := s.backups ++
            [rowsOf s.dayFile ++ inp.records.map recordToRow] } := by
      unfold stepCycle create_backup_from_main_excel
      rw [hroll]
      simp [hne, herr, save_to_excel_spec hrec s.dayFile, hcond, hrows]
    rw [hstep]
    exact ⟨rfl, rfl, rfl⟩
  · intro hrec herr hcond
    have hne : inp.records.isEmpty = false := by
      simpa [List.isEmpty_iff] using hrec
    have hnot : ¬ (BACKUP_CYCLE_INTERVAL ≤ s.cycleCount + 1 - s.lastBackupCycle) := by
      omega
    have hstep : stepCycle s inp =
        { dateFolder := s.dateFolder,
          dayFile := some (rowsOf s.dayFile ++ inp.records.map recordToRow),
          cycleCount := s.cycleCount + 1, lastBackupCycle := s.lastBackupCycle,
          firstCycle := false, backups := s.backups } := by
      unfold stepCycle
      rw [hroll]
      simp [hne, herr, save_to_excel_spec hrec s.dayFile, hnot]
    rw [hstep]
    exact ⟨rfl, rfl⟩
  · intro hcase
    rcases hcase with hrec | herr
    · have hne : inp.records.isEmpty = true := by simp [hrec]
      have hstep : stepCycle s inp =
          { dateFolder := s.dateFolder, dayFile := s.dayFile,
            cycleCount := s.cycleCount + 1, lastBackupCycle := s.lastBackupCycle,
            firstCycle := s.firstCycle, backups := s.backups } := by
        unfold stepCycle
        rw [hroll]
        simp [hne]
      rw [hstep]
      exact ⟨rfl, rfl⟩
    · by_cases hne : inp.records.isEmpty
      · have hstep : stepCycle s inp =
            { dateFolder := s.dateFolder, dayFile := s.dayFile,
              cycleCount := s.cycleCount + 1, lastBackupCycle := s.lastBackupCycle,
              firstCycle := s.firstCycle, backups := s.backups } := by
          unfold stepCycle
          rw [hroll]
          simp [hne]
        rw [hstep]
        exact ⟨rfl, rfl⟩
      · have hstep : stepCycle s inp =
            { dateFolder := s.dateFolder, dayFile := s.dayFile,
              cycleCount := s.cycleCount + 1, lastBackupCycle := s.lastBackupCycle,
              firstCycle := s.firstCycle, backups := s.backups } := by
          unfold stepCycle
          rw [hroll]
          simp [hne, herr]
        rw [hstep]
        exact ⟨rfl, rfl⟩



/-- Witness for C4: a successful persist 90 cycles after the last backup
produces one backup holding the whole day-file. -/
theorem claim_C4_witness :
    (stepCycle c4State c4Input).backups =
      [[[("x").toList], recordToRow sampleRecord]] ∧
    (stepCycle c4State c4Input).lastBackupCycle = 100 ∧
    create_backup_from_main_excel none = (false, none) := by
  have h := claim_C4_backup_cadence c4State c4Input rfl
  have h1 := h.1.1 (by decide) rfl (by decide)
  exact ⟨h1.1, h1.2.1, h.2.1⟩



set_option maxRecDepth 8000 in
/-- C4 counterexample: over this trace only one cycle persisted
successfully, yet a backup was already produced, because the code compares
the raw cycle counter, not a count of successful persist cycles, against
BACKUP_CYCLE_INTERVAL; under the claim the first backup would come only
after 60 successful persists. -/
theorem claim_C4_counterexample :
    BACKUP_CYCLE_INTERVAL = 60 ∧
    countSuccessfulPersists c4Trace = 1 ∧
    (runLoop (initialState (("d").toList) none) c4Trace).backups.length = 1 :=
  ⟨rfl, by decide, by decide⟩



lemma postLoop_spec (outcomes : Nat → ApiOutcome) :
    ∀ (recs : List CourtData) (idx : Nat),
    (postLoop outcomes idx recs).1 + (postLoop outcomes idx recs).2.1 =
      recs.length ∧
    (postLoop outcomes idx recs).2.2.1.length = (postLoop outcomes idx recs).2.1 ∧
    (postLoop outcomes idx recs).2.2.2 = recs.map build_api_payload := by
  intro recs
  induction recs with
  | nil => intro idx; exact ⟨rfl, rfl, rfl⟩
  | cons r rs ih =>
    intro idx
    obtain ⟨h1, h2, h3⟩ := ih (idx + 1)
    unfold postLoop
    by_cases hok : (post_court_data_to_api r (outcomes idx)).1 = true
    · simp only [hok, if_true]
      refine ⟨by simp; omega, by simp [h2], by simp [h3]⟩
    · simp only [hok, if_false, Bool.false_eq_true]
      refine ⟨by simp; omega, by simp [h2], by simp [h3]⟩

/-- C6 (amended): a single POST reduces to a (bool, message) pair whose
bool agrees with postSuccessSpec; for every non-empty batch the summary
returned satisfies total = number of records, successful + failed = total,
one failure-detail entry per failed record with at most the first five
shown, and posts exactly one payload per record in order with no retry;
on the empty batch the success-rate computation raises ZeroDivisionError
instead of returning a summary. -/
theorem claim_C6_ingestion_summary :
    ∀ (recs : List CourtData) (outcomes : Nat → ApiOutcome),
    (∀ (r : CourtData) (o : ApiOutcome),
      (post_court_data_to_api r o).1 = postSuccessSpec o) ∧
    (recs ≠ [] → (post_all_courts_to_api recs outcomes).isOk = true) ∧
    (recs ≠ [] → ∀ (sum : ApiSummary) (posts : List ApiPayload),
      post_all_courts_to_api recs outcomes = .ok (sum, posts) →
      sum.total = recs.length ∧ sum.successful + sum.failed = sum.total ∧
      sum.errors.length = sum.failed ∧
      shownFailureDetails sum = sum.errors.take 5 ∧
      (shownFailureDetails sum).length ≤ 5 ∧
      posts = recs.map build_api_payload) := by
  intro recs outcomes
  have hlen : recs ≠ [] → (recs.length = 0) = False := by
    intro hne
    simp [List.length_eq_zero, hne]
  refine ⟨?_, ?_, ?_⟩
  · intro r o
    cases o with
    | response st jb txt =>
      cases jb with
      | some j =>
        by_cases hst : st = 200 ∨ st = 201 <;>
          simp [post_court_data_to_api, postSuccessSpec, hst]
      | none =>
        by_cases hst : st = 200 ∨ st = 201 <;>
          simp [post_court_data_to_api, postSuccessSpec, hst]
    | timeout => rfl
    | connError => rfl
    | otherExc m => rfl
  · intro hne
    unfold post_all_courts_to_api
    simp only [hlen hne, if_false]
    rfl
  · intro hne sum posts heq
    unfold post_all_courts_to_api at heq
    simp only [hlen hne, if_false] at heq
    obtain ⟨h1, h2, h3⟩ := postLoop_spec outcomes recs 0
    cases heq
    refine ⟨rfl, h1, h2, rfl, ?_, h3⟩
    simp [shownFailureDetails]

/-- C6 counterexample: on the empty batch the function raises
ZeroDivisionError instead of returning a summary with total 0, and a
status-200 response whose body is not JSON reduces to false. -/
theorem claim_C6_counterexample :
    post_all_courts_to_api [] (fun _ => ApiOutcome.timeout) =
      .error .zeroDivisionError ∧
    (post_court_data_to_api sampleRecord
      (.response 200 none (("not json").toList))).1 = false := ⟨rfl, rfl⟩

/-- Witness for C6 at a one-record batch answered with status 201. -/
theorem claim_C6_witness :
    (post_all_courts_to_api [sampleRecord]
      (fun _ => ApiOutcome.response 201 (some (("ok").toList)) [])).isOk = true ∧
    (post_court_data_to_api sampleRecord ApiOutcome.timeout).1 =
      postSuccessSpec ApiOutcome.timeout := by
  have h := claim_C6_ingestion_summary [sampleRecord]
    (fun _ => ApiOutcome.response 201 (some (("ok").toList)) [])
  exact ⟨h.2.1 (by decide), h.1 sampleRecord ApiOutcome.timeout⟩

end DisplayBoard
